import Mathlib

/-!
otel-launcher-go: temporality policy and instrument storage.

A shallow embedding of

* `lightstep/sdk/metric/aggregator/aggregation/temporality.go`
* `lightstep/sdk/metric/internal/viewstate/base_instrument.go`
* `pipelines/metrics.go` (`tempoOptions`, `singleCount`, `interceptor`,
  `NewMetricsPipeline`)

Go pointers to `Storage` are addresses into an explicit heap, Go maps are
association lists with unique keys, Go slices are a backing array with a
length.  The instrument lock is not modelled: every operation below is the
sequential behaviour of the critical section it guards.  Functions of the Go
standard library and of other packages enter as parameters or as small
models, each marked as such.
-/

namespace Otel

/-! ## aggregation/temporality.go -/

/-- Temporality is the Go type `uint8`; the values a variable of that type
can hold are the naturals below 256. -/
abbrev Temporality := Nat

/-- UndefinedTemporality indicates that temporality is not defined. -/
def UndefinedTemporality : Temporality := 0

/-- CumulativeTemporality indicates that an exporter expects a cumulative
aggregation. -/
def CumulativeTemporality : Temporality := 1

/-- DeltaTemporality indicates that an exporter expects a delta
aggregation. -/
def DeltaTemporality : Temporality := 2

/-- The method `Temporality.Valid`: a switch over the three named constants. -/
def Temporality.Valid (t : Temporality) : Bool :=
  if t = UndefinedTemporality ∨ t = DeltaTemporality ∨ t = CumulativeTemporality then true
  else false

/-! ## sdkinstrument (declarations used by the sources) -/

/-- Modelled from the spec: the declaration of `sdkinstrument.Kind` is not
among the sources.  The six named instrument kinds are the constants the
sources and the spec mention; `other n` stands for any further value of the
underlying integer type, which equals none of the named constants. -/
inductive Kind where
  | SyncCounter
  | SyncUpDownCounter
  | SyncHistogram
  | AsyncCounter
  | AsyncUpDownCounter
  | AsyncGauge
  | other (n : Nat)
  deriving DecidableEq, Repr

/-- TemporalitySelector is `func(sdkinstrument.Kind) Temporality`. -/
abbrev TemporalitySelector := Kind → Temporality

/-- Modelled from the spec: the declaration of `sdkinstrument.Descriptor` is
not among the sources; it carries the name, kind, unit, description and
number kind of an instrument.  The sources read and write `Description`. -/
structure Descriptor where
  Name : String
  Kind : Kind
  NumberKind : Nat
  Unit : String
  Description : String
  deriving DecidableEq, Repr

/-! ## pipelines/metrics.go: tempoOptions -/

/-- Modelled from the spec: the declaration of `PipelineConfig` is not among
the sources; these are the fields `metrics.go` reads that are plain data. -/
structure PipelineConfig where
  ReportingPeriod : String := ""
  TemporalityPreference : String := ""
  UseLightstepMetricsSDK : Bool := false
  MetricsBuiltinsEnabled : Bool := false
  MetricsBuiltinLibraries : List String := []
  Endpoint : String := ""
  deriving DecidableEq, Repr

/-- The ASCII branch of `strings.ToLower`: a byte in `A..Z` is moved to
`a..z`, every other byte is kept. -/
def asciiLower (c : Char) : Char :=
  if 65 ≤ c.toNat ∧ c.toNat ≤ 90 then Char.ofNat (c.toNat + 32) else c

/-- Modelled from the Go standard library, whose code is not among the
sources: `strings.ToLower`.  A string all of whose characters are ASCII has
each of `A..Z` replaced by its lower-case letter; any other string is mapped
character by character through `unicode.ToLower`, which is the parameter
`toLowerRune`.  Strings are sequences of Unicode characters (a Go string
that is not valid UTF-8 has no counterpart here). -/
def strings.ToLower (toLowerRune : Char → Char) (s : String) : String :=
  if s.data.all (fun c => decide (c.toNat < 128)) then String.mk (s.data.map asciiLower)
  else String.mk (s.data.map toLowerRune)

/-- The temporality selectors of the old metrics SDK that `tempoOptions`
hands back, by the name of the constructor function it calls. -/
inductive OldSelector where
  | DeltaTemporalitySelector
  | StatelessTemporalitySelector
  | CumulativeTemporalitySelector
  deriving DecidableEq, Repr

/-- The function literal `tempoOptions` wraps in
`view.WithDefaultAggregationTemporalitySelector`: a switch on the kind. -/
def tempoSelector (syncPref asyncPref : Temporality) : TemporalitySelector :=
  fun k =>
    if k = Kind.SyncUpDownCounter ∨ k = Kind.AsyncUpDownCounter then CumulativeTemporality
    else if k = Kind.SyncCounter ∨ k = Kind.SyncHistogram then syncPref
    else asyncPref

/-- The function `tempoOptions`.  The `view.Option` it returns is the option
that installs the selector, so it is represented by that selector; the Go
result `(nil, nil, err)` is `Except.error`. -/
def tempoOptions (toLowerRune : Char → Char) (c : PipelineConfig) :
    Except String (TemporalitySelector × OldSelector) :=
  let syncPref := CumulativeTemporality
  let asyncPref := CumulativeTemporality
  let lower := strings.ToLower toLowerRune c.TemporalityPreference
  if lower = "delta" then
    let syncPref := DeltaTemporality
    let asyncPref := DeltaTemporality
    .ok (tempoSelector syncPref asyncPref, OldSelector.DeltaTemporalitySelector)
  else if lower = "stateless" then
    let syncPref := DeltaTemporality
    .ok (tempoSelector syncPref asyncPref, OldSelector.StatelessTemporalitySelector)
  else if lower = "" ∨ lower = "cumulative" then
    .ok (tempoSelector syncPref asyncPref, OldSelector.CumulativeTemporalitySelector)
  else
    .error ("invalid temporality preference: " ++ c.TemporalityPreference)

/-- The preference strings the spec lists as recognised. -/
def recognizedPreferences : List String := ["", "cumulative", "delta", "stateless"]

/-! ## Memory, maps and slices of the Go runtime -/

/-- A Go pointer `*Storage`: an address of the heap. -/
abbrev Ptr := Nat

/-- The part of memory that holds `Storage` values: the content of every
address, and the first address that `new(Storage)` has not handed out. -/
structure Heap (Storage : Type) where
  mem : Ptr → Storage
  next : Ptr

/-- An assignment through a pointer, `*p = v`. -/
def Heap.write {Storage : Type} (h : Heap Storage) (p : Ptr) (v : Storage) : Heap Storage :=
  { h with mem := fun q => if q = p then v else h.mem q }

/-- The Go builtin `new(Storage)`: a fresh address holding the zero value. -/
def Heap.new {Storage : Type} [Inhabited Storage] (h : Heap Storage) : Ptr × Heap Storage :=
  (h.next, { mem := fun q => if q = h.next then default else h.mem q, next := h.next + 1 })

/-- A method `f(from, to *Storage)` that reads and writes the two pointed-to
values: `f` gives the contents of `from` and `to` after the call from their
contents before it.  `from` is written first, which only matters when the two
pointers are the same address. -/
def Heap.call2 {Storage : Type} (f : Storage → Storage → Storage × Storage)
    (h : Heap Storage) (src dst : Ptr) : Heap Storage :=
  let r := f (h.mem src) (h.mem dst)
  (h.write src r.1).write dst r.2

/-- The Go expression `m[k]` with the comma-ok form, on a map kept as a list
of its entries. -/
def mapLookup {K V : Type} [DecidableEq K] : List (K × V) → K → Option V
  | [], _ => none
  | (k', v) :: rest, k => if k' = k then some v else mapLookup rest k

/-- The Go statement `m[k] = v`: the entry of `k` is replaced when there is
one and added otherwise. -/
def mapAssign {K V : Type} [DecidableEq K] : List (K × V) → K → V → List (K × V)
  | [], k, v => [(k, v)]
  | (k', v') :: rest, k, v =>
    if k' = k then (k, v) :: rest else (k', v') :: mapAssign rest k v

/-- A Go slice: `elems` are the elements `[0:len]`, `spare` is the rest of
the backing array, `[len:cap]`, which keeps what was stored there before the
slice was cut back. -/
structure Slice (T : Type) where
  elems : List T
  spare : List T

instance {T : Type} : Inhabited (Slice T) := ⟨{ elems := [], spare := [] }⟩

/-- The element `&s[len(s)-1]` a pointer to the last slot refers to. -/
def Slice.last {T : Type} [Inhabited T] (s : Slice T) : T :=
  s.elems.getLast?.getD default

/-- An assignment through a pointer to the last slot. -/
def Slice.setLast {T : Type} (s : Slice T) (v : T) : Slice T :=
  { s with elems := s.elems.dropLast ++ [v] }

/-- The Go expression `s[:0]`: no elements, the same backing array. -/
def Slice.reset {T : Type} (s : Slice T) : Slice T :=
  { elems := [], spare := s.elems ++ s.spare }

/-! ## attribute, aggregator and data (declarations used by the sources) -/

/-- Modelled from the spec: `attribute.KeyValue`, a key with its value. -/
abbrev attribute.KeyValue := String × String

/-- Modelled from the spec: `attribute.Set`, "an immutable, order-independent
collection of key/value label pairs, canonicalized so that two sets with the
same pairs are equal". -/
abbrev attribute.Set := Finset attribute.KeyValue

/-- Modelled from the spec: `attribute.Filter`, the predicate that says which
pairs are kept. -/
abbrev attribute.Filter := attribute.KeyValue → Bool

/-- Modelled from the spec: `attribute.NewSetWithFiltered(kvs.ToSlice(), f)`,
whose code is not among the sources.  The slice lists the pairs of the set
`kvs`; the first result is the set of the pairs the filter keeps, the second
holds the pairs it removes. -/
def attribute.NewSetWithFiltered (kvs : attribute.Set) (f : attribute.Filter) :
    attribute.Set × attribute.Set :=
  (kvs.filter (fun kv => f kv = true), kvs.filter (fun kv => ¬ f kv = true))

/-- Modelled from the spec: the interface `aggregator.Methods[N, Storage]`,
whose declaration is not among the sources, with the operations the sources
call and `Update`.  A method that takes `*Storage` arguments is given by its
effect on the pointed-to values: `Init s cfg` is the content after `Init` of
a cell that held `s`; `Move a b` and `Copy a b` are the contents of `from`
and `to` after the call when they held `a` and `b`.  `ToAggregation` sees the
pointer and the value it points to.  `ToStorage` returns the Go pair
`(*Storage, bool)`, `none` being the nil pointer. -/
structure Methods (N Config Storage Aggregation : Type) where
  Kind : Nat
  Init : Storage → Config → Storage
  Update : Storage → N → Storage
  Move : Storage → Storage → Storage × Storage
  Copy : Storage → Storage → Storage × Storage
  ToAggregation : Ptr → Storage → Aggregation
  ToStorage : Aggregation → Option Ptr × Bool

/-- An instant of `time.Time`. -/
abbrev Time := Int

/-- Modelled from the spec: `data.Point`, "attributes, a snapshot of the
aggregation, the temporality it was produced under, and a [start, end) time
interval". -/
structure data.Point (Aggregation : Type) where
  Attributes : attribute.Set
  Aggregation : Aggregation
  Temporality : Temporality
  Start : Time
  End : Time

instance {Aggregation : Type} [Inhabited Aggregation] : Inhabited (data.Point Aggregation) :=
  ⟨{ Attributes := ∅, Aggregation := default, Temporality := 0, Start := 0, End := 0 }⟩

/-- Modelled from the spec: `data.Instrument`, "descriptor plus an ordered
sequence of Points, rebuilt every collection cycle but backed by a reusable
underlying array". -/
structure data.Instrument (Aggregation : Type) where
  Descriptor : Descriptor
  Points : Slice (data.Point Aggregation)

instance {Aggregation : Type} : Inhabited (data.Instrument Aggregation) :=
  ⟨{ Descriptor := { Name := "", Kind := Kind.SyncCounter, NumberKind := 0, Unit := "",
                     Description := "" },
     Points := default }⟩

/-- Modelled from the spec: `data.ReallocateFrom`, whose code is not among the
sources: "obtain or reuse a slot from a growable, reusable backing array".
The slice grows by one element: the next slot of the backing array as it was
left, when there is spare capacity, and a zero value otherwise.  The pointer
it returns is the pointer to the last element of the result. -/
def data.ReallocateFrom {T : Type} [Inhabited T] (p : Slice T) : Slice T :=
  match p.spare with
  | x :: rest => { elems := p.elems ++ [x], spare := rest }
  | [] => { elems := p.elems ++ [default], spare := [] }

/-! ## viewstate/base_instrument.go -/

/-- The struct `instrumentBase`, without its lock.  A nil `keysSet` or
`keysFilter` is `none`. -/
structure instrumentBase (Config : Type) where
  fromName : String
  desc : Descriptor
  acfg : Config
  data : List (attribute.Set × Ptr)
  keysSet : Option attribute.Set
  keysFilter : Option attribute.Filter

/-- What a method with receiver `metric *instrumentBase` can read and write:
the instrument and the memory its `*Storage` pointers refer to. -/
structure State (Config Storage : Type) where
  metric : instrumentBase Config
  heap : Heap Storage

/-- The method `Aggregation`. -/
def instrumentBase.Aggregation {N C S A : Type} (M : Methods N C S A)
    (_metric : instrumentBase C) : Nat :=
  M.Kind

/-- The method `OriginalName`. -/
def instrumentBase.OriginalName {C : Type} (metric : instrumentBase C) : String :=
  metric.fromName

/-- The method `Descriptor`. -/
def instrumentBase.Descriptor {C : Type} (metric : instrumentBase C) : Descriptor :=
  metric.desc

/-- The method `Keys`. -/
def instrumentBase.Keys {C : Type} (metric : instrumentBase C) : Option attribute.Set :=
  metric.keysSet

/-- The method `Config`. -/
def instrumentBase.Config {C : Type} (metric : instrumentBase C) : C :=
  metric.acfg

section viewstate

variable {N Config Storage Aggregation : Type} [Inhabited Storage] [Inhabited Aggregation]

/-- The method `initStorage`: `methods.Init(s, metric.acfg)`. -/
def initStorage (M : Methods N Config Storage Aggregation) (st : State Config Storage)
    (s : Ptr) : State Config Storage :=
  { st with heap := st.heap.write s (M.Init (st.heap.mem s) st.metric.acfg) }

/-- The method `mergeDescription`; `len` is the length in bytes. -/
def mergeDescription (st : State Config Storage) (d : String) : State Config Storage :=
  if d.utf8ByteSize > st.metric.desc.Description.utf8ByteSize then
    { st with metric := { st.metric with desc := { st.metric.desc with Description := d } } }
  else st

/-- The method `newStorage`: allocates and initializes a new Storage. -/
def newStorage (M : Methods N Config Storage Aggregation) (st : State Config Storage) :
    Ptr × State Config Storage :=
  let r := st.heap.new
  let ns := r.1
  (ns, initStorage M { st with heap := r.2 } ns)

/-- The first half of `storageFinder`: the key the returned function looks up,
`kvs` itself or, with a filter, the filtered set. -/
def storageFinder.key (metric : instrumentBase Config) (kvs : attribute.Set) : attribute.Set :=
  match metric.keysFilter with
  | some f => (attribute.NewSetWithFiltered kvs f).1
  | none => kvs

/-- The method `storageFinder`.  The result is the function it returns: run
in a state of the instrument, it gives the `*Storage` and the state it
leaves. -/
def storageFinder (M : Methods N Config Storage Aggregation) (metric : instrumentBase Config)
    (kvs : attribute.Set) : State Config Storage → Ptr × State Config Storage :=
  let kvs := storageFinder.key metric kvs
  fun st =>
    match mapLookup st.metric.data kvs with
    | some storage => (storage, st)
    | none =>
      let r := newStorage M st
      let ns := r.1
      (ns, { r.2 with metric := { r.2.metric with data := mapAssign r.2.metric.data kvs ns } })

/-- The method `appendInstrument`; the `*data.Instrument` it returns points to
the last element of the output it leaves. -/
def appendInstrument (st : State Config Storage) (output : Slice (data.Instrument Aggregation)) :
    State Config Storage × Slice (data.Instrument Aggregation) :=
  let output := data.ReallocateFrom output
  let inst := output.last
  let inst := { inst with Descriptor := st.metric.desc }
  (st, output.setLast inst)

/-- The method `appendOrReusePoint`; the `*data.Point` it returns points to
the last element of `inst.Points` as it leaves them. -/
def appendOrReusePoint (M : Methods N Config Storage Aggregation)
    (inst : data.Instrument Aggregation) : data.Instrument Aggregation × Option Ptr :=
  let inst := { inst with Points := data.ReallocateFrom inst.Points }
  let point := inst.Points.last
  let r := M.ToStorage point.Aggregation
  if r.2 then (inst, r.1) else (inst, none)

/-- The pointer `out` of `appendPoint` and the state it is used in: the
recycled pointer when `appendOrReusePoint` gives one, a new Storage
otherwise. -/
def appendPoint.out (M : Methods N Config Storage Aggregation) (st : State Config Storage)
    (out : Option Ptr) : Ptr × State Config Storage :=
  match out with
  | none => newStorage M st
  | some p => (p, st)

/-- The method `appendPoint`, on the instrument `inst` points to. -/
def appendPoint (M : Methods N Config Storage Aggregation) (st : State Config Storage)
    (inst : data.Instrument Aggregation) (set : attribute.Set) (storage : Ptr)
    (tempo : Temporality) (start end_ : Time) (reset : Bool) :
    State Config Storage × data.Instrument Aggregation :=
  let r := appendOrReusePoint M inst
  let inst := r.1
  let o := appendPoint.out M st r.2
  let out := o.1
  let st := o.2
  let st : State Config Storage :=
    if reset then { st with heap := st.heap.call2 M.Move storage out }
    else { st with heap := st.heap.call2 M.Copy storage out }
  let point := inst.Points.last
  let point := { point with Attributes := set }
  let point := { point with Aggregation := M.ToAggregation out (st.heap.mem out) }
  let point := { point with Temporality := tempo }
  let point := { point with Start := start }
  let point := { point with End := end_ }
  (st, { inst with Points := inst.Points.setLast point })

/-- The value of the variable `out` of `appendPoint` at its call of `Move` or
`Copy`. -/
def appendPoint.outPtr (M : Methods N Config Storage Aggregation) (st : State Config Storage)
    (inst : data.Instrument Aggregation) : Ptr :=
  (appendPoint.out M st (appendOrReusePoint M inst).2).1

end viewstate

/-! ## A sum aggregator and a collection cycle, for the scenarios -/

/-- Modelled from the spec: a sum aggregator, whose code is not among the
sources.  The Storage is the running sum; `Move` hands the sum over and
resets it to zero, `Copy` duplicates it; the aggregation is the pointer to
the output Storage (`none` is the nil interface), which `ToStorage` gives
back. -/
def sumMethods : Methods Int Unit Int (Option Ptr) where
  Kind := 1
  Init := fun _ _ => 0
  Update := fun s v => s + v
  Move := fun a _ => (0, a)
  Copy := fun a _ => (a, a)
  ToAggregation := fun p _ => some p
  ToStorage := fun a => (a, a.isSome)

/-- Modelled from the spec: recording one measurement, "Storage Table
resolves/creates an accumulator, the Aggregation Method updates it in
place". -/
def record {N Config Storage Aggregation : Type} [Inhabited Storage]
    (M : Methods N Config Storage Aggregation) (st : State Config Storage)
    (kvs : attribute.Set) (v : N) : State Config Storage :=
  let r := storageFinder M st.metric kvs st
  { r.2 with heap := r.2.heap.write r.1 (M.Update (r.2.heap.mem r.1) v) }

/-- Recording a list of measurements, in order. -/
def recordAll {N Config Storage Aggregation : Type} [Inhabited Storage]
    (M : Methods N Config Storage Aggregation) (st : State Config Storage)
    (kvs : attribute.Set) (vs : List N) : State Config Storage :=
  vs.foldl (fun s v => record M s kvs v) st

/-- Modelled from the spec: the points of one collection cycle, "for each
(attribute-set, Storage) pair currently in the table" one `appendPoint`. -/
def collectPoints {N Config Storage Aggregation : Type} [Inhabited Storage]
    [Inhabited Aggregation] (M : Methods N Config Storage Aggregation)
    (tempo : Temporality) (start end_ : Time) (reset : Bool) :
    List (attribute.Set × Ptr) → State Config Storage × data.Instrument Aggregation →
    State Config Storage × data.Instrument Aggregation
  | [], acc => acc
  | (set, storage) :: rest, acc =>
    collectPoints M tempo start end_ reset rest
      (appendPoint M acc.1 acc.2 set storage tempo start end_ reset)

/-- Modelled from the spec: one collection cycle of one instrument into an
output whose previous content was cut back to length zero: the Instrument
record is appended, its points are cut back, and every table entry is
appended, moved for Delta and copied for Cumulative. -/
def collect {N Config Storage Aggregation : Type} [Inhabited Storage]
    [Inhabited Aggregation] (M : Methods N Config Storage Aggregation)
    (st : State Config Storage) (output : Slice (data.Instrument Aggregation))
    (tempo : Temporality) (start end_ : Time) :
    State Config Storage × Slice (data.Instrument Aggregation) :=
  let r := appendInstrument st output.reset
  let inst := r.2.last
  let inst := { inst with Points := inst.Points.reset }
  let c := collectPoints M tempo start end_ (decide (tempo = DeltaTemporality))
    r.1.metric.data (r.1, inst)
  (c.1, r.2.setLast c.2)

/-- The numbers a collection emitted: what the aggregation pointers of the
points of the last instrument hold. -/
def emitted (r : State Unit Int × Slice (data.Instrument (Option Ptr))) : List (Option Int) :=
  r.2.last.Points.elems.map (fun p => p.Aggregation.map r.1.heap.mem)

/-- An instrument with an empty table, and an empty memory. -/
def emptyState (d : Descriptor) (keysFilter : Option attribute.Filter) : State Unit Int :=
  { metric := { fromName := d.Name, desc := d, acfg := (), data := [], keysSet := none,
                keysFilter := keysFilter },
    heap := { mem := fun _ => 0, next := 0 } }

/-- A counter descriptor for the scenarios. -/
def counterDesc : Descriptor :=
  { Name := "c", Kind := Kind.SyncCounter, NumberKind := 0, Unit := "", Description := "A" }

/-- Scenario, Delta: a counter receives 1, 2, 3 and is collected. -/
def deltaCycle1 : State Unit Int × Slice (data.Instrument (Option Ptr)) :=
  collect sumMethods (recordAll sumMethods (emptyState counterDesc none) ∅ [1, 2, 3])
    default DeltaTemporality 0 1

/-- Scenario, Delta: it then receives 4 and is collected into the recycled
output of the first cycle. -/
def deltaCycle2 : State Unit Int × Slice (data.Instrument (Option Ptr)) :=
  collect sumMethods (recordAll sumMethods deltaCycle1.1 ∅ [4]) deltaCycle1.2
    DeltaTemporality 1 2

/-- Scenario, Cumulative: a counter receives 1, 2, 3 and is collected. -/
def cumulativeCycle1 : State Unit Int × Slice (data.Instrument (Option Ptr)) :=
  collect sumMethods (recordAll sumMethods (emptyState counterDesc none) ∅ [1, 2, 3])
    default CumulativeTemporality 0 1

/-- Scenario, Cumulative: it then receives 4 and is collected into the
recycled output of the first cycle. -/
def cumulativeCycle2 : State Unit Int × Slice (data.Instrument (Option Ptr)) :=
  collect sumMethods (recordAll sumMethods cumulativeCycle1.1 ∅ [4]) cumulativeCycle1.2
    CumulativeTemporality 0 2

/-- The state of a counter that received 1, 2, 3: its table has one entry,
the empty attribute set at address 0, which holds 6. -/
def liveSix : State Unit Int :=
  recordAll sumMethods (emptyState counterDesc none) ∅ [1, 2, 3]

/-- A key filter that keeps the pairs whose key is "host". -/
def hostOnly : attribute.Filter := fun kv => decide (kv.1 = "host")

/-- The attribute set host=a, pid=1. -/
def hostA1 : attribute.Set := {("host", "a"), ("pid", "1")}

/-- The attribute set host=a, pid=2. -/
def hostA2 : attribute.Set := {("host", "a"), ("pid", "2")}

/-! ## A collection cycle over several instruments -/

/-- Modelled from the spec: the first step of a collection cycle, "for each
registered instrument, regardless of whether any measurement arrived since the
last cycle, append an Instrument record to the output": `appendInstrument` is
called for the instruments in their order. -/
def appendInstruments {Config Storage Aggregation : Type} :
    List (State Config Storage) → Slice (data.Instrument Aggregation) →
    Slice (data.Instrument Aggregation)
  | [], output => output
  | st :: rest, output => appendInstruments rest (appendInstrument st output).2

/-- The descriptors of the Instrument records of an output, in order. -/
def descriptors {Aggregation : Type} (output : Slice (data.Instrument Aggregation)) :
    List Descriptor :=
  output.elems.map (fun i => i.Descriptor)

/-- The state `liveSix` with one more allocated cell, address 1, which holds
5: the output Storage a previous cycle left behind. -/
def liveSixStale : State Unit Int :=
  { liveSix with heap := (liveSix.heap.new.2).write 1 5 }

/-- An instrument record with no points whose spare capacity holds a point of
a previous cycle, the aggregation of which is the Storage at address 1. -/
def recycledInst : data.Instrument (Option Ptr) :=
  { Descriptor := counterDesc,
    Points := { elems := [],
                spare := [{ Attributes := ∅, Aggregation := some 1,
                            Temporality := DeltaTemporality, Start := 0, End := 1 }] } }

/-- An instrument record with no points and no spare capacity. -/
def freshInst : data.Instrument (Option Ptr) :=
  { Descriptor := counterDesc, Points := { elems := [], spare := [] } }

/-! ## pipelines/metrics.go: singleCount and interceptor -/

/-- The errors `singleCount` returns: `errNoSingleCount`, or the error of
`strconv.Atoi`. -/
inductive CountError where
  | errNoSingleCount
  | atoi (msg : String)
  deriving DecidableEq, Repr

/-- The function `singleCount`; `strconv.Atoi` is the parameter `Atoi`, and
the Go `int` is an integer. -/
def singleCount (Atoi : String → Except String Int) (values : List String) :
    Except CountError Int :=
  match values with
  | [v] =>
    match Atoi v with
    | .ok n => .ok n
    | .error e => .error (CountError.atoi e)
  | _ => .error CountError.errNoSingleCount

/-- The struct `dropExample`. -/
structure dropExample where
  Reason : String
  Names : List String
  deriving DecidableEq, Repr

/-- The struct `dropSummary`; its zero value has both counts 0 and no
examples. -/
structure dropSummary where
  Points : Int := 0
  Metrics : Int := 0
  Examples : List dropExample := []
  deriving DecidableEq, Repr

/-- The method `dropSummary.Empty`. -/
def dropSummary.Empty (ds : dropSummary) : Bool :=
  ds.Examples.length == 0 && ds.Points == 0 && ds.Metrics == 0

/-- Modelled from the Go standard library: `strings.HasPrefix`. -/
def strings.HasPrefix (s p : String) : Bool :=
  p.data.isPrefixOf s.data

/-- Modelled from the Go standard library: `strings.ReplaceAll(s, "-", " ")`,
the replacement of one character by another. -/
def strings.ReplaceAll (s : String) (old new : Char) : String :=
  String.mk (s.data.map (fun c => if c = old then new else c))

/-- The constant `invalidTrailerPrefix` of `interceptor`. -/
def invalidTrailerPrefix : String := "otlp-invalid-"

/-- Trailer metadata `metadata.MD`, a Go map from keys to value lists, kept
as the list of its entries in the order the `range` loop visits them. -/
abbrev MD := List (String × List String)

/-- The body of the `range md` loop of `interceptor`, for one entry. -/
def interceptor.step (toLowerRune : Char → Char) (Atoi : String → Except String Int)
    (ds : dropSummary) (entry : String × List String) : dropSummary :=
  let key := strings.ToLower toLowerRune entry.1
  let values := entry.2
  if ¬ strings.HasPrefix key "otlp-" = true then ds
  else if key = "otlp-points-dropped" then
    match singleCount Atoi values with
    | .ok points => { ds with Points := points }
    | .error _ => ds
  else if key = "otlp-metrics-dropped" then
    match singleCount Atoi values with
    | .ok metrics => { ds with Metrics := metrics }
    | .error _ => ds
  else if strings.HasPrefix key invalidTrailerPrefix = true then
    let key := String.mk (key.data.drop invalidTrailerPrefix.data.length)
    let key := strings.ReplaceAll key '-' ' '
    { ds with Examples := ds.Examples ++ [{ Reason := key, Names := values }] }
  else ds

/-- The `range md` loop of `interceptor`, from a given summary. -/
def interceptor.loop (toLowerRune : Char → Char) (Atoi : String → Except String Int) :
    MD → dropSummary → dropSummary
  | [], ds => ds
  | entry :: rest, ds =>
    interceptor.loop toLowerRune Atoi rest (interceptor.step toLowerRune Atoi ds entry)

/-- The drop summary `interceptor` builds from the trailers. -/
def interceptor.summary (toLowerRune : Char → Char) (Atoi : String → Except String Int)
    (md : MD) : dropSummary :=
  interceptor.loop toLowerRune Atoi md {}

/-- The function `interceptor`.  The call of `invoker` is given by what it
returns and the trailers it stores through `grpc.Trailer(&md)` (`none` is the
nil map).  The result is the error returned and the calls of `otel.Handle`,
each given by the drop summary whose JSON form is in the message. -/
def interceptor (toLowerRune : Char → Char) (Atoi : String → Except String Int)
    (invoked : Option String × Option MD) : Option String × List dropSummary :=
  let err := invoked.1
  match err, invoked.2 with
  | none, some md =>
    let ds := interceptor.summary toLowerRune Atoi md
    if ¬ ds.Empty = true then (err, [ds]) else (err, [])
  | _, _ => (err, [])

/-- A stand-in for `strconv.Atoi` on the strings the examples use. -/
def exampleAtoi (s : String) : Except String Int :=
  if s = "0" then .ok 0
  else if s = "3" then .ok 3
  else if s = "7" then .ok 7
  else .error ("strconv.Atoi: parsing " ++ s ++ ": invalid syntax")

/-! ## pipelines/metrics.go: NewMetricsPipeline -/

/-- The functions of type `initFunc` that `metrics.go` declares. -/
inductive initFunc where
  | prestableHostMetrics
  | prestableRuntimeMetrics
  | stableHostMetrics
  | stableRuntimeMetrics
  | stableCputimeMetrics
  deriving DecidableEq, Repr

/-- The constant `prestableVersion`. -/
def prestableVersion : String := "prestable"

/-- The constant `defaultVersion`. -/
def defaultVersion : String := "stable"

/-- The table `builtinMetricsVersions`; `none` is a missing key. -/
def builtinMetricsVersions (name : String) : Option (String → Option (List initFunc)) :=
  if name = "all" then
    some (fun version =>
      if version = defaultVersion then
        some [initFunc.stableHostMetrics, initFunc.stableRuntimeMetrics,
          initFunc.stableCputimeMetrics]
      else if version = prestableVersion then
        some [initFunc.prestableHostMetrics, initFunc.prestableRuntimeMetrics]
      else none)
  else if name = "cputime" then
    some (fun version =>
      if version = defaultVersion then some [initFunc.stableCputimeMetrics]
      else if version = prestableVersion then some []
      else none)
  else if name = "host" then
    some (fun version =>
      if version = defaultVersion then some [initFunc.stableHostMetrics]
      else if version = prestableVersion then some [initFunc.prestableHostMetrics]
      else none)
  else if name = "runtime" then
    some (fun version =>
      if version = defaultVersion then some [initFunc.stableRuntimeMetrics]
      else if version = prestableVersion then some [initFunc.prestableRuntimeMetrics]
      else none)
  else none

/-- Modelled from the Go standard library: `strings.Cut(s, sep)` for a
separator of one character: the text before the first separator, the text
after it, and whether there is one. -/
def strings.Cut (s : String) (sep : Char) : String × String × Bool :=
  match (s.data.span (fun c => c != sep)).2 with
  | [] => (s, "", false)
  | _ :: after => (String.mk (s.data.span (fun c => c != sep)).1, String.mk after, true)

/-- The constant `time.Second`, in nanoseconds. -/
def time.Second : Int := 1000000000

/-- What `NewMetricsPipeline` does to the world outside it, in order: the
exporters and SDKs it creates (with the collection period, in nanoseconds),
the instrumentation it starts, the errors it hands to `otel.Handle`, and the
installation of the meter provider. -/
inductive Event where
  | newMetricsExporter
  | newOldMetricsExporter (tempo : OldSelector)
  | NewMeterProvider (period : Int)
  | controllerNew (period : Int)
  | controllerStart
  | start (f : initFunc)
  | unrecognizedBuiltin (name : String)
  | unrecognizedBuiltinVersion (name version : String)
  | failedToStart (name err : String)
  | SetMeterProvider
  deriving DecidableEq, Repr

/-- The outcomes of the calls `NewMetricsPipeline` makes outside the
repository: `unicode.ToLower`, `time.ParseDuration` (a duration in
nanoseconds, or an error), the error of creating an exporter, of starting the
controller and of starting an instrumentation library (`none` is nil). -/
structure Env where
  toLowerRune : Char → Char
  ParseDuration : String → Except String Int
  newExporter : Option String
  controllerStart : Option String
  startLibrary : initFunc → Option String

/-- The shutdown function `NewMetricsPipeline` returns, by the call it
makes. -/
inductive Shutdown where
  | sdkShutdown
  | controllerStop
  deriving DecidableEq, Repr

/-- The reporting period of `NewMetricsPipeline` (its first statements, up to
the declaration of `provider`): the default of 30 seconds, or the parsed
`ReportingPeriod`, which has to be positive. -/
def NewMetricsPipeline.period (ParseDuration : String → Except String Int)
    (c : PipelineConfig) : Except String Int :=
  let period := 30 * time.Second
  if c.ReportingPeriod ≠ "" then
    match ParseDuration c.ReportingPeriod with
    | .error err => .error ("invalid metric reporting period: " ++ err)
    | .ok period =>
      if period ≤ 0 then .error ("invalid metric reporting period: " ++ c.ReportingPeriod)
      else .ok period
  else .ok period

/-- The body of the innermost loop of `NewMetricsPipeline`: one library is
started, and its error, if any, is handled. -/
def NewMetricsPipeline.startAll (env : Env) (name : String) : List initFunc → List Event
  | [] => []
  | f :: fs =>
    (match env.startLibrary f with
      | some err => [Event.start f, Event.failedToStart name err]
      | none => [Event.start f]) ++ NewMetricsPipeline.startAll env name fs

/-- The loop of `NewMetricsPipeline` over `c.MetricsBuiltinLibraries`. -/
def NewMetricsPipeline.builtins (env : Env) : List String → List Event
  | [] => []
  | lib :: libs =>
    let cut := strings.Cut lib ':'
    let name := cut.1
    let version := if cut.2.1 = "" then defaultVersion else cut.2.1
    (match builtinMetricsVersions name with
      | none => [Event.unrecognizedBuiltin name]
      | some vm =>
        match vm version with
        | none => [Event.unrecognizedBuiltinVersion name version]
        | some fs => NewMetricsPipeline.startAll env name fs) ++
      NewMetricsPipeline.builtins env libs

/-- The end of `NewMetricsPipeline`, once the provider is there: the builtin
libraries when they are enabled, and the installation of the provider. -/
def NewMetricsPipeline.finish (env : Env) (c : PipelineConfig) : List Event :=
  (if c.MetricsBuiltinsEnabled then NewMetricsPipeline.builtins env c.MetricsBuiltinLibraries
    else []) ++ [Event.SetMeterProvider]

/-- The function `NewMetricsPipeline`: the shutdown function or the error it
returns, and what it has done. -/
def NewMetricsPipeline (env : Env) (c : PipelineConfig) : Except String Shutdown × List Event :=
  match NewMetricsPipeline.period env.ParseDuration c with
  | .error err => (.error err, [])
  | .ok period =>
    match tempoOptions env.toLowerRune c with
    | .error err => (.error ("invalid metric view configuration: " ++ err), [])
    | .ok (_newPref, oldPref) =>
      if c.UseLightstepMetricsSDK then
        match env.newExporter with
        | some err =>
          (.error ("failed to create metric exporter: " ++ err), [Event.newMetricsExporter])
        | none =>
          (.ok Shutdown.sdkShutdown,
            [Event.newMetricsExporter, Event.NewMeterProvider period] ++
              NewMetricsPipeline.finish env c)
      else
        match env.newExporter with
        | some err =>
          (.error ("failed to create metric exporter: " ++ err),
            [Event.newOldMetricsExporter oldPref])
        | none =>
          match env.controllerStart with
          | some err =>
            (.error ("failed to start controller: " ++ err),
              [Event.newOldMetricsExporter oldPref, Event.controllerNew period,
                Event.controllerStart])
          | none =>
            (.ok Shutdown.controllerStop,
              [Event.newOldMetricsExporter oldPref, Event.controllerNew period,
                Event.controllerStart] ++ NewMetricsPipeline.finish env c)

/-- A stand-in for `time.ParseDuration` on the strings the examples use. -/
def exampleParseDuration (s : String) : Except String Int :=
  if s = "10s" then .ok (10 * time.Second)
  else if s = "0s" then .ok 0
  else if s = "-5s" then .ok (-5 * time.Second)
  else .error ("time: invalid duration " ++ s)

/-- An environment in which every outside call succeeds. -/
def exampleEnv : Env :=
  { toLowerRune := asciiLower, ParseDuration := exampleParseDuration, newExporter := none,
    controllerStart := none, startLibrary := fun _ => none }

/-! ## Theorems: tempoOptions -/

theorem ToLower_empty (u : Char → Char) : strings.ToLower u "" = "" := rfl

theorem ToLower_cumulative (u : Char → Char) : strings.ToLower u "cumulative" = "cumulative" := by
  rfl

theorem ToLower_delta (u : Char → Char) : strings.ToLower u "delta" = "delta" := by
  rfl

theorem ToLower_stateless (u : Char → Char) : strings.ToLower u "stateless" = "stateless" := by
  rfl

/-- Every accepted preference yields one of the three selectors the switch
builds. -/
theorem tempoOptions_ok_cases (u : Char → Char) (c : PipelineConfig)
    (sel : TemporalitySelector) (old : OldSelector) (h : tempoOptions u c = .ok (sel, old)) :
    sel = tempoSelector DeltaTemporality DeltaTemporality ∨
    sel = tempoSelector DeltaTemporality CumulativeTemporality ∨
    sel = tempoSelector CumulativeTemporality CumulativeTemporality := by
  unfold tempoOptions at h
  simp only at h
  split_ifs at h with h1 h2 h3
  · injection h with h; injection h with h _; exact Or.inl h.symm
  · injection h with h; injection h with h _; exact Or.inr (Or.inl h.symm)
  · injection h with h; injection h with h _; exact Or.inr (Or.inr h.symm)

/-- The selector of `tempoOptions` answers Cumulative for the two
up-down-counter kinds, whatever the two preferences are. -/
theorem tempoSelector_upDown (s a : Temporality) :
    tempoSelector s a Kind.SyncUpDownCounter = CumulativeTemporality ∧
    tempoSelector s a Kind.AsyncUpDownCounter = CumulativeTemporality := by
  constructor <;> simp [tempoSelector]

/-- Each of the four recognised preference strings is accepted. -/
theorem tempoOptions_accepts_recognized (u : Char → Char) (c : PipelineConfig)
    (hc : c.TemporalityPreference ∈ recognizedPreferences) : ∃ r, tempoOptions u c = .ok r := by
  simp only [recognizedPreferences, List.mem_cons, List.mem_singleton, List.mem_nil_iff,
    or_false] at hc
  unfold tempoOptions
  rcases hc with hc | hc | hc | hc <;> rw [hc]
  · rw [ToLower_empty]; exact ⟨_, rfl⟩
  · rw [ToLower_cumulative]; exact ⟨_, rfl⟩
  · rw [ToLower_delta]; exact ⟨_, rfl⟩
  · rw [ToLower_stateless]; exact ⟨_, rfl⟩

/-- C1 (policy override law): each of the preferences "", "cumulative",
"delta" and "stateless" is accepted by `tempoOptions`, and for every
preference that `tempoOptions` accepts the selector it builds returns
CumulativeTemporality for SyncUpDownCounter and for AsyncUpDownCounter. -/
theorem tempoOptions_upDownCounter_cumulative (u : Char → Char) :
    (∀ c : PipelineConfig, c.TemporalityPreference ∈ recognizedPreferences →
      ∃ r, tempoOptions u c = .ok r) ∧
    (∀ (c : PipelineConfig) (sel : TemporalitySelector) (old : OldSelector),
      tempoOptions u c = .ok (sel, old) →
      sel Kind.SyncUpDownCounter = CumulativeTemporality ∧
      sel Kind.AsyncUpDownCounter = CumulativeTemporality) := by
  constructor
  · exact fun c hc => tempoOptions_accepts_recognized u c hc
  · intro c sel old h
    rcases tempoOptions_ok_cases u c sel old h with hs | hs | hs <;> rw [hs] <;>
      exact tempoSelector_upDown _ _

/-- Witness of C1: the preference "delta" is accepted and its selector keeps
both up-down-counters cumulative. -/
theorem tempoOptions_upDownCounter_cumulative_witness :
    tempoOptions asciiLower { TemporalityPreference := "delta" } =
      .ok (tempoSelector DeltaTemporality DeltaTemporality,
        OldSelector.DeltaTemporalitySelector) ∧
    tempoSelector DeltaTemporality DeltaTemporality Kind.SyncUpDownCounter
      = CumulativeTemporality ∧
    tempoSelector DeltaTemporality DeltaTemporality Kind.AsyncUpDownCounter
      = CumulativeTemporality :=
  ⟨rfl, (tempoOptions_upDownCounter_cumulative asciiLower).2
    { TemporalityPreference := "delta" } _ _ rfl⟩

/-- C2: for a kind other than the two up-down-counters, the selector built
by `tempoOptions` returns Cumulative when the preference is "" or
"cumulative", Delta when it is "delta", and, when it is "stateless", Delta
for SyncCounter and SyncHistogram and Cumulative for every other kind (the
asynchronous ones, AsyncCounter and AsyncGauge among them). -/
theorem tempoOptions_selector_by_preference (u : Char → Char) (c : PipelineConfig) (k : Kind)
    (hs : k ≠ Kind.SyncUpDownCounter) (ha : k ≠ Kind.AsyncUpDownCounter) :
    (c.TemporalityPreference = "" ∨ c.TemporalityPreference = "cumulative" →
      ∃ sel old, tempoOptions u c = .ok (sel, old) ∧ sel k = CumulativeTemporality) ∧
    (c.TemporalityPreference = "delta" →
      ∃ sel old, tempoOptions u c = .ok (sel, old) ∧ sel k = DeltaTemporality) ∧
    (c.TemporalityPreference = "stateless" →
      ∃ sel old, tempoOptions u c = .ok (sel, old) ∧
        (k = Kind.SyncCounter ∨ k = Kind.SyncHistogram → sel k = DeltaTemporality) ∧
        (k = Kind.AsyncCounter ∨ k = Kind.AsyncGauge → sel k = CumulativeTemporality) ∧
        (k ≠ Kind.SyncCounter → k ≠ Kind.SyncHistogram → sel k = CumulativeTemporality)) := by
  refine ⟨?_, ?_, ?_⟩
  · intro hc
    unfold tempoOptions
    rcases hc with hc | hc <;> rw [hc]
    · rw [ToLower_empty]
      refine ⟨_, _, rfl, ?_⟩
      simp [tempoSelector, hs, ha]
    · rw [ToLower_cumulative]
      refine ⟨_, _, rfl, ?_⟩
      simp [tempoSelector, hs, ha]
  · intro hc
    unfold tempoOptions
    rw [hc, ToLower_delta]
    refine ⟨_, _, rfl, ?_⟩
    simp [tempoSelector, hs, ha]
  · intro hc
    unfold tempoOptions
    rw [hc, ToLower_stateless]
    refine ⟨_, _, rfl, ?_, ?_, ?_⟩
    · intro hk
      simp [tempoSelector, hs, ha, hk]
    · intro hk
      rcases hk with hk | hk <;> subst hk <;> simp [tempoSelector]
    · intro h1 h2
      simp [tempoSelector, hs, ha, h1, h2]

/-- Witness of C2: the statement at the kind SyncHistogram. -/
theorem tempoOptions_selector_by_preference_witness :
    Kind.SyncHistogram ≠ Kind.SyncUpDownCounter ∧
    Kind.SyncHistogram ≠ Kind.AsyncUpDownCounter ∧
    ∃ sel old, tempoOptions asciiLower { TemporalityPreference := "stateless" } = .ok (sel, old) ∧
      (Kind.SyncHistogram = Kind.SyncCounter ∨ Kind.SyncHistogram = Kind.SyncHistogram →
        sel Kind.SyncHistogram = DeltaTemporality) ∧
      (Kind.SyncHistogram = Kind.AsyncCounter ∨ Kind.SyncHistogram = Kind.AsyncGauge →
        sel Kind.SyncHistogram = CumulativeTemporality) ∧
      (Kind.SyncHistogram ≠ Kind.SyncCounter → Kind.SyncHistogram ≠ Kind.SyncHistogram →
        sel Kind.SyncHistogram = CumulativeTemporality) :=
  ⟨by decide, by decide,
    (tempoOptions_selector_by_preference asciiLower { TemporalityPreference := "stateless" }
      Kind.SyncHistogram (by decide) (by decide)).2.2 rfl⟩

/-- Counterexample to C3 as stated: "DELTA" is not one of the four recognised
values, and `tempoOptions` accepts it: it returns the selectors of "delta"
and no error. -/
theorem tempoOptions_accepts_upper_case :
    "DELTA" ∉ recognizedPreferences ∧
    tempoOptions asciiLower { TemporalityPreference := "DELTA" } =
      .ok (tempoSelector DeltaTemporality DeltaTemporality,
        OldSelector.DeltaTemporalitySelector) :=
  ⟨by decide, rfl⟩

/-- C3, amended: `tempoOptions` returns an error, and no selector, exactly for
the preferences whose lower-cased form (`strings.ToLower`) is not one of "",
"cumulative", "delta" and "stateless"; it returns selectors and no error for
every preference whose lower-cased form is one of them, and so for each of
those four values. -/
theorem tempoOptions_error_iff_unrecognized (u : Char → Char) (c : PipelineConfig) :
    (strings.ToLower u c.TemporalityPreference ∉ recognizedPreferences →
      tempoOptions u c =
        .error ("invalid temporality preference: " ++ c.TemporalityPreference)) ∧
    (strings.ToLower u c.TemporalityPreference ∈ recognizedPreferences →
      ∃ r, tempoOptions u c = .ok r) ∧
    (c.TemporalityPreference ∈ recognizedPreferences → ∃ r, tempoOptions u c = .ok r) := by
  refine ⟨?_, ?_, ?_⟩
  · intro h
    simp only [recognizedPreferences, List.mem_cons, List.mem_singleton, List.mem_nil_iff,
      or_false, not_or] at h
    obtain ⟨h1, h2, h3, h4⟩ := h
    unfold tempoOptions
    simp only
    rw [if_neg h3, if_neg h4, if_neg (by simp [h1, h2])]
  · intro h
    simp only [recognizedPreferences, List.mem_cons, List.mem_singleton, List.mem_nil_iff,
      or_false] at h
    unfold tempoOptions
    simp only
    split_ifs with h1 h2 h3
    · exact ⟨_, rfl⟩
    · exact ⟨_, rfl⟩
    · exact ⟨_, rfl⟩
    · exfalso
      rcases h with h | h | h | h
      · exact h3 (Or.inl h)
      · exact h3 (Or.inr h)
      · exact h1 h
      · exact h2 h
  · exact tempoOptions_accepts_recognized u c

/-- Witness of C3 amended: "bogus" is rejected, with the message of the
source. -/
theorem tempoOptions_error_iff_unrecognized_witness :
    strings.ToLower asciiLower "bogus" ∉ recognizedPreferences ∧
    tempoOptions asciiLower { TemporalityPreference := "bogus" } =
      .error "invalid temporality preference: bogus" :=
  ⟨by decide,
    (tempoOptions_error_iff_unrecognized asciiLower { TemporalityPreference := "bogus" }).1
      (by decide)⟩

/-! ## Theorems: memory -/

section memory

variable {Storage : Type}

theorem Heap.write_mem_same (h : Heap Storage) (p : Ptr) (v : Storage) :
    (h.write p v).mem p = v := by
  simp [Heap.write]

theorem Heap.write_mem_other (h : Heap Storage) (p q : Ptr) (v : Storage) (hq : q ≠ p) :
    (h.write p v).mem q = h.mem q := by
  simp [Heap.write, hq]

theorem Heap.write_next (h : Heap Storage) (p : Ptr) (v : Storage) :
    (h.write p v).next = h.next := rfl

theorem Heap.call2_mem_src (f : Storage → Storage → Storage × Storage) (h : Heap Storage)
    (src dst : Ptr) (hne : dst ≠ src) :
    (h.call2 f src dst).mem src = (f (h.mem src) (h.mem dst)).1 := by
  simp [Heap.call2, Heap.write, hne.symm]

theorem Heap.call2_mem_dst (f : Storage → Storage → Storage × Storage) (h : Heap Storage)
    (src dst : Ptr) :
    (h.call2 f src dst).mem dst = (f (h.mem src) (h.mem dst)).2 := by
  simp [Heap.call2, Heap.write]

theorem Heap.call2_mem_other (f : Storage → Storage → Storage × Storage) (h : Heap Storage)
    (src dst q : Ptr) (hs : q ≠ src) (hd : q ≠ dst) :
    (h.call2 f src dst).mem q = h.mem q := by
  simp [Heap.call2, Heap.write, hs, hd]

theorem Heap.call2_next (f : Storage → Storage → Storage × Storage) (h : Heap Storage)
    (src dst : Ptr) : (h.call2 f src dst).next = h.next := rfl

theorem Slice.last_setLast {T : Type} [Inhabited T] (s : Slice T) (v : T) :
    (s.setLast v).last = v := by
  simp [Slice.last, Slice.setLast]

end memory

/-! ## Theorems: appendPoint -/

section newStorageLemmas

variable {N Config Storage Aggregation : Type} [Inhabited Storage]

theorem newStorage_ptr (M : Methods N Config Storage Aggregation) (st : State Config Storage) :
    (newStorage M st).1 = st.heap.next := rfl

theorem newStorage_metric (M : Methods N Config Storage Aggregation)
    (st : State Config Storage) : (newStorage M st).2.metric = st.metric := rfl

theorem newStorage_next (M : Methods N Config Storage Aggregation)
    (st : State Config Storage) : (newStorage M st).2.heap.next = st.heap.next + 1 := rfl

theorem newStorage_mem_new (M : Methods N Config Storage Aggregation)
    (st : State Config Storage) :
    (newStorage M st).2.heap.mem (newStorage M st).1 = M.Init default st.metric.acfg := by
  simp [newStorage, initStorage, Heap.new, Heap.write]

theorem newStorage_mem_old (M : Methods N Config Storage Aggregation)
    (st : State Config Storage) (q : Ptr) (hq : q ≠ st.heap.next) :
    (newStorage M st).2.heap.mem q = st.heap.mem q := by
  simp [newStorage, initStorage, Heap.new, Heap.write, hq]

theorem appendPoint.out_metric (M : Methods N Config Storage Aggregation)
    (st : State Config Storage) (o : Option Ptr) :
    (appendPoint.out M st o).2.metric = st.metric := by
  cases o <;> rfl

theorem appendPoint.out_ne (M : Methods N Config Storage Aggregation)
    (st : State Config Storage) (o : Option Ptr) (storage : Ptr)
    (halloc : storage < st.heap.next) (hne : o ≠ some storage) :
    (appendPoint.out M st o).1 ≠ storage := by
  cases o with
  | none =>
    show st.heap.next ≠ storage
    exact Nat.ne_of_gt halloc
  | some p =>
    show p ≠ storage
    intro hp
    exact hne (by rw [hp])

theorem appendPoint.out_mem (M : Methods N Config Storage Aggregation)
    (st : State Config Storage) (o : Option Ptr) (storage : Ptr)
    (halloc : storage < st.heap.next) :
    (appendPoint.out M st o).2.heap.mem storage = st.heap.mem storage := by
  cases o with
  | none => exact newStorage_mem_old M st storage (Nat.ne_of_lt halloc)
  | some p => rfl

end newStorageLemmas

section appendPointLemmas

variable {N Config Storage Aggregation : Type} [Inhabited Storage] [Inhabited Aggregation]

theorem appendPoint_state (M : Methods N Config Storage Aggregation)
    (st : State Config Storage) (inst : data.Instrument Aggregation) (set : attribute.Set)
    (storage : Ptr) (tempo : Temporality) (start end_ : Time) (reset : Bool) :
    (appendPoint M st inst set storage tempo start end_ reset).1 =
      { (appendPoint.out M st (appendOrReusePoint M inst).2).2 with
        heap := (appendPoint.out M st (appendOrReusePoint M inst).2).2.heap.call2
          (if reset then M.Move else M.Copy) storage (appendPoint.outPtr M st inst) } := by
  cases reset <;> rfl

theorem appendPoint_last (M : Methods N Config Storage Aggregation)
    (st : State Config Storage) (inst : data.Instrument Aggregation) (set : attribute.Set)
    (storage : Ptr) (tempo : Temporality) (start end_ : Time) (reset : Bool) :
    (appendPoint M st inst set storage tempo start end_ reset).2.Points.last =
      { Attributes := set,
        Aggregation := M.ToAggregation (appendPoint.outPtr M st inst)
          ((appendPoint M st inst set storage tempo start end_ reset).1.heap.mem
            (appendPoint.outPtr M st inst)),
        Temporality := tempo, Start := start, End := end_ } := by
  cases reset <;> simp [appendPoint, Slice.last_setLast, appendPoint.outPtr]

/-- What a call of `f(storage, out)` inside `appendPoint` leaves in the live
Storage and in the output Storage, when the two are different cells. -/
theorem appendPoint_cells (M : Methods N Config Storage Aggregation)
    (st : State Config Storage) (inst : data.Instrument Aggregation) (set : attribute.Set)
    (storage : Ptr) (tempo : Temporality) (start end_ : Time) (reset : Bool)
    (halloc : storage < st.heap.next) (hne : (appendOrReusePoint M inst).2 ≠ some storage) :
    ∃ b : Storage,
      (appendPoint M st inst set storage tempo start end_ reset).1.heap.mem storage =
        ((if reset then M.Move else M.Copy) (st.heap.mem storage) b).1 ∧
      (appendPoint M st inst set storage tempo start end_ reset).1.heap.mem
          (appendPoint.outPtr M st inst) =
        ((if reset then M.Move else M.Copy) (st.heap.mem storage) b).2 := by
  refine ⟨(appendPoint.out M st (appendOrReusePoint M inst).2).2.heap.mem
    (appendPoint.outPtr M st inst), ?_, ?_⟩
  · rw [appendPoint_state]
    show (Heap.call2 _ _ storage (appendPoint.outPtr M st inst)).mem storage = _
    have hout : appendPoint.outPtr M st inst ≠ storage :=
      appendPoint.out_ne M st _ storage halloc hne
    rw [Heap.call2_mem_src _ _ _ _ hout, appendPoint.out_mem M st _ storage halloc]
  · rw [appendPoint_state]
    show (Heap.call2 _ _ storage (appendPoint.outPtr M st inst)).mem _ = _
    rw [Heap.call2_mem_dst, appendPoint.out_mem M st _ storage halloc]

end appendPointLemmas

/-- C4 (reset law): let `Move` honour its contract at the state of the live
Storage (`Move(from, to)` puts that state in `to` and leaves `from` in the
state `Init` gives with the instrument's config), and let the live Storage be
an allocated cell that the recycled output slot does not point to.  Then a
call of `appendPoint` with `reset = true` leaves the live Storage equal to a
freshly initialised one (the content `newStorage` gives a new cell), and the
appended Point's Aggregation is `ToAggregation` of the output Storage holding
the state the live Storage had before the call.  Scenario: a sum that
received 1, 2, 3 and then 4 emits 6 and then 4, and is 0 after each
collection. -/
theorem appendPoint_reset_law {N Config Storage Aggregation : Type} [Inhabited Storage]
    [Inhabited Aggregation] (M : Methods N Config Storage Aggregation)
    (st : State Config Storage) (inst : data.Instrument Aggregation) (set : attribute.Set)
    (storage : Ptr) (tempo : Temporality) (start end_ : Time)
    (halloc : storage < st.heap.next)
    (hfresh : (appendOrReusePoint M inst).2 ≠ some storage)
    (hmove : ∀ b, M.Move (st.heap.mem storage) b =
      (M.Init default st.metric.acfg, st.heap.mem storage)) :
    ((appendPoint M st inst set storage tempo start end_ true).1.heap.mem storage =
        M.Init default st.metric.acfg ∧
      (appendPoint M st inst set storage tempo start end_ true).1.heap.mem storage =
        (newStorage M (appendPoint M st inst set storage tempo start end_ true).1).2.heap.mem
          (newStorage M (appendPoint M st inst set storage tempo start end_ true).1).1 ∧
      (appendPoint M st inst set storage tempo start end_ true).2.Points.last.Aggregation =
        M.ToAggregation (appendPoint.outPtr M st inst) (st.heap.mem storage) ∧
      (appendPoint M st inst set storage tempo start end_ true).1.heap.mem
        (appendPoint.outPtr M st inst) = st.heap.mem storage) ∧
    (emitted deltaCycle1 = [some 6] ∧ deltaCycle1.1.metric.data = [(∅, 0)] ∧
      deltaCycle1.1.heap.mem 0 = 0 ∧
      emitted deltaCycle2 = [some 4] ∧ deltaCycle2.1.metric.data = [(∅, 0)] ∧
      deltaCycle2.1.heap.mem 0 = 0) := by
  obtain ⟨b, hsrc, hdst⟩ :=
    appendPoint_cells M st inst set storage tempo start end_ true halloc hfresh
  simp only [if_true, hmove] at hsrc hdst
  refine ⟨⟨hsrc, ?_, ?_, hdst⟩, by decide⟩
  · rw [newStorage_mem_new, hsrc, appendPoint_state]
    simp only [appendPoint.out_metric]
  · rw [appendPoint_last]
    simp only [hdst]

/-- Witness of C4: the reset law at a sum that holds 6, collected into an
empty output. -/
theorem appendPoint_reset_law_witness :
    (0 : Ptr) < liveSix.heap.next ∧
    (appendOrReusePoint sumMethods (default : data.Instrument (Option Ptr))).2 ≠ some 0 ∧
    (∀ b, sumMethods.Move (liveSix.heap.mem 0) b =
      (sumMethods.Init default liveSix.metric.acfg, liveSix.heap.mem 0)) ∧
    liveSix.heap.mem 0 = 6 ∧
    (appendPoint sumMethods liveSix default ∅ 0 DeltaTemporality 0 1 true).1.heap.mem 0 =
      sumMethods.Init default liveSix.metric.acfg ∧
    (appendPoint sumMethods liveSix default ∅ 0 DeltaTemporality 0 1 true).2.Points.last.Aggregation
      = sumMethods.ToAggregation (appendPoint.outPtr sumMethods liveSix default)
          (liveSix.heap.mem 0) :=
  ⟨by decide, by decide, fun _ => rfl, by decide,
    (appendPoint_reset_law sumMethods liveSix default ∅ 0 DeltaTemporality 0 1
      (by decide) (by decide) (fun _ => rfl)).1.1,
    (appendPoint_reset_law sumMethods liveSix default ∅ 0 DeltaTemporality 0 1
      (by decide) (by decide) (fun _ => rfl)).1.2.2.1⟩

/-- C5 (running-total law): let `Copy` honour its contract at the state of
the live Storage (`Copy(from, to)` puts that state in `to` and leaves `from`
unchanged), and let the live Storage be an allocated cell that the recycled
output slot does not point to.  Then a call of `appendPoint` with
`reset = false` leaves the live Storage exactly as it was, and the appended
Point's Aggregation is `ToAggregation` of the output Storage holding the live
Storage's state.  Scenario: a sum that received 1, 2, 3 and then 4 emits 6
and then 10. -/
theorem appendPoint_running_total_law {N Config Storage Aggregation : Type}
    [Inhabited Storage] [Inhabited Aggregation] (M : Methods N Config Storage Aggregation)
    (st : State Config Storage) (inst : data.Instrument Aggregation) (set : attribute.Set)
    (storage : Ptr) (tempo : Temporality) (start end_ : Time)
    (halloc : storage < st.heap.next)
    (hfresh : (appendOrReusePoint M inst).2 ≠ some storage)
    (hcopy : ∀ b, M.Copy (st.heap.mem storage) b = (st.heap.mem storage, st.heap.mem storage)) :
    ((appendPoint M st inst set storage tempo start end_ false).1.heap.mem storage =
        st.heap.mem storage ∧
      (appendPoint M st inst set storage tempo start end_ false).2.Points.last.Aggregation =
        M.ToAggregation (appendPoint.outPtr M st inst) (st.heap.mem storage) ∧
      (appendPoint M st inst set storage tempo start end_ false).1.heap.mem
        (appendPoint.outPtr M st inst) = st.heap.mem storage) ∧
    (emitted cumulativeCycle1 = [some 6] ∧ cumulativeCycle1.1.metric.data = [(∅, 0)] ∧
      cumulativeCycle1.1.heap.mem 0 = 6 ∧
      emitted cumulativeCycle2 = [some 10] ∧ cumulativeCycle2.1.metric.data = [(∅, 0)] ∧
      cumulativeCycle2.1.heap.mem 0 = 10) := by
  obtain ⟨b, hsrc, hdst⟩ :=
    appendPoint_cells M st inst set storage tempo start end_ false halloc hfresh
  simp only [Bool.false_eq_true, if_false, hcopy] at hsrc hdst
  refine ⟨⟨hsrc, ?_, hdst⟩, by decide⟩
  rw [appendPoint_last]
  simp only [hdst]

/-- Witness of C5: the running-total law at a sum that holds 6, collected
into an empty output. -/
theorem appendPoint_running_total_law_witness :
    (0 : Ptr) < liveSix.heap.next ∧
    (appendOrReusePoint sumMethods (default : data.Instrument (Option Ptr))).2 ≠ some 0 ∧
    (∀ b, sumMethods.Copy (liveSix.heap.mem 0) b = (liveSix.heap.mem 0, liveSix.heap.mem 0)) ∧
    liveSix.heap.mem 0 = 6 ∧
    (appendPoint sumMethods liveSix default ∅ 0 CumulativeTemporality 0 1 false).1.heap.mem 0 =
      liveSix.heap.mem 0 ∧
    (appendPoint sumMethods liveSix default ∅ 0 CumulativeTemporality 0 1
        false).2.Points.last.Aggregation
      = sumMethods.ToAggregation (appendPoint.outPtr sumMethods liveSix default)
          (liveSix.heap.mem 0) :=
  ⟨by decide, by decide, fun _ => rfl, by decide,
    (appendPoint_running_total_law sumMethods liveSix default ∅ 0 CumulativeTemporality 0 1
      (by decide) (by decide) (fun _ => rfl)).1.1,
    (appendPoint_running_total_law sumMethods liveSix default ∅ 0 CumulativeTemporality 0 1
      (by decide) (by decide) (fun _ => rfl)).1.2.1⟩

/-- Counterexample to C6 as stated: a sum that holds 6 is appended with
temporality Delta and `reset = false`; the Point is a Delta point, yet the
live Storage was copied and still holds 6, not the initial 0.  Appended with
temporality Cumulative and `reset = true`, the Point is a Cumulative point,
yet the live Storage was moved and reset to 0. -/
theorem appendPoint_temporality_does_not_choose :
    liveSix.heap.mem 0 = 6 ∧ sumMethods.Init default liveSix.metric.acfg = 0 ∧
    (appendPoint sumMethods liveSix default ∅ 0 DeltaTemporality 0 1
      false).2.Points.last.Temporality = DeltaTemporality ∧
    (appendPoint sumMethods liveSix default ∅ 0 DeltaTemporality 0 1 false).1.heap.mem 0 = 6 ∧
    (appendPoint sumMethods liveSix default ∅ 0 CumulativeTemporality 0 1
      true).2.Points.last.Temporality = CumulativeTemporality ∧
    (appendPoint sumMethods liveSix default ∅ 0 CumulativeTemporality 0 1 true).1.heap.mem 0 = 0 := by
  decide

/-- C6, amended: in every call of `appendPoint` the choice between `Move` and
`Copy` is made by the argument `reset` alone: `Move(storage, out)` is called
when `reset` is true and `Copy(storage, out)` when it is false, so (for
Methods that honour the contracts, on an allocated live Storage that the
recycled slot does not point to) the live Storage is reset when `reset` is
true and left untouched when it is false.  The temporality passed to the call
has no part in it: it is stored in the Point, and changing it changes neither
the state the call leaves nor the Point's Aggregation. -/
theorem appendPoint_choice_by_reset {N Config Storage Aggregation : Type}
    [Inhabited Storage] [Inhabited Aggregation] (M : Methods N Config Storage Aggregation)
    (st : State Config Storage) (inst : data.Instrument Aggregation) (set : attribute.Set)
    (storage : Ptr) (tempo : Temporality) (start end_ : Time) :
    (appendPoint M st inst set storage tempo start end_ true).1.heap =
      (appendPoint.out M st (appendOrReusePoint M inst).2).2.heap.call2 M.Move storage
        (appendPoint.outPtr M st inst) ∧
    (appendPoint M st inst set storage tempo start end_ false).1.heap =
      (appendPoint.out M st (appendOrReusePoint M inst).2).2.heap.call2 M.Copy storage
        (appendPoint.outPtr M st inst) ∧
    (∀ (reset : Bool) (tempo' : Temporality),
      (appendPoint M st inst set storage tempo' start end_ reset).1 =
        (appendPoint M st inst set storage tempo start end_ reset).1 ∧
      (appendPoint M st inst set storage tempo' start end_ reset).2.Points.last.Aggregation =
        (appendPoint M st inst set storage tempo start end_ reset).2.Points.last.Aggregation ∧
      (appendPoint M st inst set storage tempo' start end_ reset).2.Points.last.Temporality =
        tempo') ∧
    (storage < st.heap.next → (appendOrReusePoint M inst).2 ≠ some storage →
      (∀ b, M.Move (st.heap.mem storage) b =
        (M.Init default st.metric.acfg, st.heap.mem storage)) →
      (appendPoint M st inst set storage tempo start end_ true).1.heap.mem storage =
        M.Init default st.metric.acfg) ∧
    (storage < st.heap.next → (appendOrReusePoint M inst).2 ≠ some storage →
      (∀ b, M.Copy (st.heap.mem storage) b = (st.heap.mem storage, st.heap.mem storage)) →
      (appendPoint M st inst set storage tempo start end_ false).1.heap.mem storage =
        st.heap.mem storage) := by
  refine ⟨by rw [appendPoint_state]; rfl, by rw [appendPoint_state]; rfl, ?_, ?_, ?_⟩
  · intro reset tempo'
    refine ⟨by rw [appendPoint_state, appendPoint_state], ?_, by rw [appendPoint_last]⟩
    rw [appendPoint_last, appendPoint_last, appendPoint_state, appendPoint_state]
  · intro halloc hfresh hmove
    obtain ⟨b, hsrc, -⟩ :=
      appendPoint_cells M st inst set storage tempo start end_ true halloc hfresh
    simpa only [if_true, hmove] using hsrc
  · intro halloc hfresh hcopy
    obtain ⟨b, hsrc, -⟩ :=
      appendPoint_cells M st inst set storage tempo start end_ false halloc hfresh
    simpa only [Bool.false_eq_true, if_false, hcopy] using hsrc

/-- Witness of C6 amended: a Delta point appended with `reset = false` leaves
the sum at 6. -/
theorem appendPoint_choice_by_reset_witness :
    (0 : Ptr) < liveSix.heap.next ∧
    (appendOrReusePoint sumMethods (default : data.Instrument (Option Ptr))).2 ≠ some 0 ∧
    (∀ b, sumMethods.Copy (liveSix.heap.mem 0) b = (liveSix.heap.mem 0, liveSix.heap.mem 0)) ∧
    (appendPoint sumMethods liveSix default ∅ 0 DeltaTemporality 0 1 false).1.heap.mem 0 =
      liveSix.heap.mem 0 :=
  ⟨by decide, by decide, fun _ => rfl,
    (appendPoint_choice_by_reset sumMethods liveSix default ∅ 0 DeltaTemporality 0 1).2.2.2.2
      (by decide) (by decide) (fun _ => rfl)⟩

/-! ## Theorems: the table -/

section tableLemmas

variable {K V : Type} [DecidableEq K]

theorem mapLookup_mapAssign_same (m : List (K × V)) (k : K) (v : V) :
    mapLookup (mapAssign m k v) k = some v := by
  induction m with
  | nil => simp [mapAssign, mapLookup]
  | cons e rest ih =>
    obtain ⟨k', v'⟩ := e
    by_cases h : k' = k
    · simp [mapAssign, mapLookup, h]
    · simp [mapAssign, mapLookup, h, ih]

theorem mapLookup_mapAssign_other (m : List (K × V)) (k k' : K) (v : V) (h : k' ≠ k) :
    mapLookup (mapAssign m k v) k' = mapLookup m k' := by
  induction m with
  | nil => simp [mapAssign, mapLookup, h.symm]
  | cons e rest ih =>
    obtain ⟨k₀, v₀⟩ := e
    by_cases h0 : k₀ = k
    · subst h0
      simp [mapAssign, mapLookup, h.symm]
    · by_cases h1 : k₀ = k'
      · subst h1
        simp [mapAssign, mapLookup, h0]
      · simp [mapAssign, mapLookup, h0, h1, ih]

theorem mapAssign_of_lookup_none (m : List (K × V)) (k : K) (v : V)
    (h : mapLookup m k = none) : mapAssign m k v = m ++ [(k, v)] := by
  induction m with
  | nil => rfl
  | cons e rest ih =>
    obtain ⟨k', v'⟩ := e
    by_cases hk : k' = k
    · simp [mapLookup, hk] at h
    · simp only [mapLookup, hk, if_false] at h
      simp [mapAssign, hk, ih h]

theorem not_mem_keys_of_lookup_none (m : List (K × V)) (k : K)
    (h : mapLookup m k = none) : k ∉ m.map Prod.fst := by
  induction m with
  | nil => simp
  | cons e rest ih =>
    obtain ⟨k', v'⟩ := e
    by_cases hk : k' = k
    · simp [mapLookup, hk] at h
    · simp only [mapLookup, hk, if_false] at h
      simp only [List.map_cons, List.mem_cons, not_or]
      exact ⟨fun hkk => hk hkk.symm, ih h⟩

end tableLemmas

section storageFinderLemmas

variable {N Config Storage Aggregation : Type} [Inhabited Storage]

theorem storageFinder_present (M : Methods N Config Storage Aggregation)
    (metric : instrumentBase Config) (kvs : attribute.Set) (st : State Config Storage)
    (s : Ptr) (h : mapLookup st.metric.data (storageFinder.key metric kvs) = some s) :
    storageFinder M metric kvs st = (s, st) := by
  simp only [storageFinder, h]

theorem storageFinder_absent (M : Methods N Config Storage Aggregation)
    (metric : instrumentBase Config) (kvs : attribute.Set) (st : State Config Storage)
    (h : mapLookup st.metric.data (storageFinder.key metric kvs) = none) :
    storageFinder M metric kvs st =
      ((newStorage M st).1,
        { (newStorage M st).2 with
          metric := { (newStorage M st).2.metric with
            data := mapAssign (newStorage M st).2.metric.data (storageFinder.key metric kvs)
              (newStorage M st).1 } }) := by
  simp only [storageFinder, h]

/-- After a resolve the key is bound to the pointer the resolve returned. -/
theorem storageFinder_bound (M : Methods N Config Storage Aggregation)
    (metric : instrumentBase Config) (kvs : attribute.Set) (st : State Config Storage) :
    mapLookup (storageFinder M metric kvs st).2.metric.data (storageFinder.key metric kvs) =
      some (storageFinder M metric kvs st).1 := by
  cases h : mapLookup st.metric.data (storageFinder.key metric kvs) with
  | some s => rw [storageFinder_present M metric kvs st s h]; exact h
  | none =>
    rw [storageFinder_absent M metric kvs st h]
    exact mapLookup_mapAssign_same _ _ _

/-- A resolve keeps every binding of the table. -/
theorem storageFinder_keeps (M : Methods N Config Storage Aggregation)
    (metric : instrumentBase Config) (kvs : attribute.Set) (st : State Config Storage)
    (k : attribute.Set) (s : Ptr) (hk : mapLookup st.metric.data k = some s) :
    mapLookup (storageFinder M metric kvs st).2.metric.data k = some s := by
  cases h : mapLookup st.metric.data (storageFinder.key metric kvs) with
  | some s' => rw [storageFinder_present M metric kvs st s' h]; exact hk
  | none =>
    rw [storageFinder_absent M metric kvs st h]
    have hne : k ≠ storageFinder.key metric kvs := by
      intro hkk
      rw [hkk, h] at hk
      exact Option.noConfusion hk
    show mapLookup (mapAssign st.metric.data _ _) k = some s
    rw [mapLookup_mapAssign_other _ _ _ _ hne]
    exact hk

/-- A second resolve of the same attribute set returns the same pointer and
changes nothing. -/
theorem storageFinder_twice (M : Methods N Config Storage Aggregation)
    (metric : instrumentBase Config) (kvs : attribute.Set) (st : State Config Storage) :
    storageFinder M metric kvs (storageFinder M metric kvs st).2 =
      ((storageFinder M metric kvs st).1, (storageFinder M metric kvs st).2) :=
  storageFinder_present M metric kvs _ _ (storageFinder_bound M metric kvs st)

/-- The number of entries after a resolve. -/
theorem storageFinder_length (M : Methods N Config Storage Aggregation)
    (metric : instrumentBase Config) (kvs : attribute.Set) (st : State Config Storage) :
    (storageFinder M metric kvs st).2.metric.data.length =
      if mapLookup st.metric.data (storageFinder.key metric kvs) = none
      then st.metric.data.length + 1 else st.metric.data.length := by
  cases h : mapLookup st.metric.data (storageFinder.key metric kvs) with
  | some s' => rw [storageFinder_present M metric kvs st s' h]; simp
  | none =>
    rw [storageFinder_absent M metric kvs st h]
    show (mapAssign st.metric.data _ _).length = _
    rw [mapAssign_of_lookup_none _ _ _ h]
    simp

end storageFinderLemmas

/-- C7 (lookup-or-create): run in any state of the instrument, the resolver
returned by `storageFinder` returns the pointer stored under the filtered key
and leaves the state unchanged when the key is present; when the key is
absent it returns a new cell (the next unallocated address), initialised by
`Init` from the zero value with the instrument's config, which it inserts
under that key, changing no other cell, no other field of the instrument and
no other entry.  Resolving the same attribute set a second time returns the
same pointer and changes nothing. -/
theorem storageFinder_lookup_or_create {N Config Storage Aggregation : Type}
    [Inhabited Storage] (M : Methods N Config Storage Aggregation)
    (metric : instrumentBase Config) (kvs : attribute.Set) (st : State Config Storage) :
    (∀ s, mapLookup st.metric.data (storageFinder.key metric kvs) = some s →
      storageFinder M metric kvs st = (s, st)) ∧
    (mapLookup st.metric.data (storageFinder.key metric kvs) = none →
      (storageFinder M metric kvs st).1 = st.heap.next ∧
      mapLookup (storageFinder M metric kvs st).2.metric.data (storageFinder.key metric kvs) =
        some (storageFinder M metric kvs st).1 ∧
      (storageFinder M metric kvs st).2.heap.mem (storageFinder M metric kvs st).1 =
        M.Init default st.metric.acfg ∧
      (storageFinder M metric kvs st).2.metric.data =
        st.metric.data ++ [(storageFinder.key metric kvs, st.heap.next)] ∧
      (storageFinder M metric kvs st).2.metric =
        { st.metric with data := (storageFinder M metric kvs st).2.metric.data } ∧
      (∀ q, q ≠ st.heap.next →
        (storageFinder M metric kvs st).2.heap.mem q = st.heap.mem q)) ∧
    storageFinder M metric kvs (storageFinder M metric kvs st).2 =
      ((storageFinder M metric kvs st).1, (storageFinder M metric kvs st).2) := by
  refine ⟨fun s h => storageFinder_present M metric kvs st s h, ?_,
    storageFinder_twice M metric kvs st⟩
  intro h
  refine ⟨?_, storageFinder_bound M metric kvs st, ?_, ?_, ?_, ?_⟩
  · rw [storageFinder_absent M metric kvs st h]; rfl
  · rw [storageFinder_absent M metric kvs st h]
    exact newStorage_mem_new M st
  · rw [storageFinder_absent M metric kvs st h]
    exact mapAssign_of_lookup_none _ _ _ h
  · rw [storageFinder_absent M metric kvs st h]; rfl
  · intro q hq
    rw [storageFinder_absent M metric kvs st h]
    exact newStorage_mem_old M st q hq

/-- The two example sets agree on the pairs the example filter keeps. -/
theorem hostOnly_agree : ∀ kv, hostOnly kv = true → (kv ∈ hostA1 ↔ kv ∈ hostA2) := by
  intro kv h
  obtain ⟨k, v⟩ := kv
  simp only [hostOnly, decide_eq_true_eq] at h
  subst h
  simp [hostA1, hostA2]

/-- Witness of C7: in the empty table the key is absent and the resolve
returns the new cell 0; in a table that binds the key to cell 0 the resolve
returns 0 and leaves the state as it is. -/
theorem storageFinder_lookup_or_create_witness :
    (mapLookup (emptyState counterDesc none).metric.data
        (storageFinder.key (emptyState counterDesc none).metric ∅) = none ∧
      (storageFinder sumMethods (emptyState counterDesc none).metric ∅
        (emptyState counterDesc none)).1 = (emptyState counterDesc none).heap.next) ∧
    (mapLookup liveSix.metric.data (storageFinder.key liveSix.metric ∅) = some 0 ∧
      storageFinder sumMethods liveSix.metric ∅ liveSix = (0, liveSix)) :=
  ⟨⟨rfl, ((storageFinder_lookup_or_create sumMethods (emptyState counterDesc none).metric ∅
      (emptyState counterDesc none)).2.1 rfl).1⟩,
    ⟨by decide, (storageFinder_lookup_or_create sumMethods liveSix.metric ∅ liveSix).1 0
      (by decide)⟩⟩

/-- C8 (table monotonicity): a resolve keeps every binding of the table (no
key is removed, none is bound to another pointer), keeps the keys distinct,
and lengthens the table by exactly one entry when the filtered key was absent
and by none when it was present; `mergeDescription`, `appendInstrument` and
`appendPoint` leave the table as it is. -/
theorem table_monotone {N Config Storage Aggregation : Type} [Inhabited Storage]
    [Inhabited Aggregation] (M : Methods N Config Storage Aggregation)
    (metric : instrumentBase Config) (st : State Config Storage) (kvs : attribute.Set) :
    (∀ k s, mapLookup st.metric.data k = some s →
      mapLookup (storageFinder M metric kvs st).2.metric.data k = some s) ∧
    ((st.metric.data.map Prod.fst).Nodup →
      ((storageFinder M metric kvs st).2.metric.data.map Prod.fst).Nodup) ∧
    (mapLookup st.metric.data (storageFinder.key metric kvs) = none →
      (storageFinder M metric kvs st).2.metric.data.length = st.metric.data.length + 1) ∧
    (mapLookup st.metric.data (storageFinder.key metric kvs) ≠ none →
      (storageFinder M metric kvs st).2.metric.data = st.metric.data) ∧
    (∀ d : String, (mergeDescription st d).metric.data = st.metric.data) ∧
    (∀ output : Slice (data.Instrument Aggregation),
      (appendInstrument st output).1.metric.data = st.metric.data) ∧
    (∀ (inst : data.Instrument Aggregation) (set : attribute.Set) (storage : Ptr)
      (tempo : Temporality) (start end_ : Time) (reset : Bool),
      (appendPoint M st inst set storage tempo start end_ reset).1.metric.data =
        st.metric.data) := by
  refine ⟨fun k s hk => storageFinder_keeps M metric kvs st k s hk, ?_, ?_, ?_, ?_, ?_, ?_⟩
  · intro hnd
    cases h : mapLookup st.metric.data (storageFinder.key metric kvs) with
    | some s => rw [storageFinder_present M metric kvs st s h]; exact hnd
    | none =>
      rw [storageFinder_absent M metric kvs st h]
      show ((mapAssign st.metric.data _ _).map Prod.fst).Nodup
      rw [mapAssign_of_lookup_none _ _ _ h, List.map_append, List.nodup_append]
      refine ⟨hnd, by simp, ?_⟩
      intro a ha hb
      simp only [List.map_cons, List.map_nil, List.mem_singleton] at hb
      subst hb
      exact not_mem_keys_of_lookup_none _ _ h ha
  · intro h
    rw [storageFinder_length, if_pos h]
  · intro h
    cases h' : mapLookup st.metric.data (storageFinder.key metric kvs) with
    | some s => rw [storageFinder_present M metric kvs st s h']
    | none => exact absurd h' h
  · intro d
    unfold mergeDescription
    split_ifs <;> rfl
  · intro output
    rfl
  · intro inst set storage tempo start end_ reset
    rw [appendPoint_state]
    show (appendPoint.out M st (appendOrReusePoint M inst).2).2.metric.data = _
    rw [appendPoint.out_metric]

/-- Witness of C8: a resolve of a new attribute set in a table with one entry
keeps that entry and gives a table with two. -/
theorem table_monotone_witness :
    mapLookup liveSix.metric.data ∅ = some 0 ∧
    mapLookup liveSix.metric.data (storageFinder.key liveSix.metric hostA1) = none ∧
    mapLookup (storageFinder sumMethods liveSix.metric hostA1 liveSix).2.metric.data ∅
      = some 0 ∧
    (storageFinder sumMethods liveSix.metric hostA1 liveSix).2.metric.data.length =
      liveSix.metric.data.length + 1 :=
  ⟨by decide, by decide,
    (table_monotone sumMethods liveSix.metric liveSix hostA1).1 ∅ 0 (by decide),
    (table_monotone sumMethods liveSix.metric liveSix hostA1).2.2.1 (by decide)⟩

/-- C9 (filter-collapse law): with a key filter, two attribute sets that hold
the same pairs among those the filter keeps give the same resolver; run one
after the other in any state, the two resolvers return the same pointer, the
second changes nothing, and the table has gained at most one entry. -/
theorem storageFinder_filter_collapse {N Config Storage Aggregation : Type}
    [Inhabited Storage] (M : Methods N Config Storage Aggregation)
    (metric : instrumentBase Config) (f : attribute.Filter) (a b : attribute.Set)
    (st : State Config Storage) (hf : metric.keysFilter = some f)
    (hab : ∀ kv, f kv = true → (kv ∈ a ↔ kv ∈ b)) :
    storageFinder M metric a = storageFinder M metric b ∧
    (storageFinder M metric b (storageFinder M metric a st).2).1 =
      (storageFinder M metric a st).1 ∧
    (storageFinder M metric b (storageFinder M metric a st).2).2 =
      (storageFinder M metric a st).2 ∧
    (storageFinder M metric b (storageFinder M metric a st).2).2.metric.data.length ≤
      st.metric.data.length + 1 := by
  have hkey : storageFinder.key metric a = storageFinder.key metric b := by
    unfold storageFinder.key
    rw [hf]
    show a.filter _ = b.filter _
    ext kv
    simp only [Finset.mem_filter]
    constructor
    · rintro ⟨h1, h2⟩
      exact ⟨(hab kv h2).1 h1, h2⟩
    · rintro ⟨h1, h2⟩
      exact ⟨(hab kv h2).2 h1, h2⟩
  have hres : storageFinder M metric a = storageFinder M metric b := by
    unfold storageFinder
    rw [hkey]
  refine ⟨hres, ?_, ?_, ?_⟩
  · rw [← hres, storageFinder_twice]
  · rw [← hres, storageFinder_twice]
  · rw [← hres, storageFinder_twice, storageFinder_length]
    split_ifs <;> omega

/-- Witness of C9: with the filter that keeps the key "host", the sets
host=a, pid=1 and host=a, pid=2 resolve to the same pointer. -/
theorem storageFinder_filter_collapse_witness :
    (emptyState counterDesc (some hostOnly)).metric.keysFilter = some hostOnly ∧
    (∀ kv, hostOnly kv = true → (kv ∈ hostA1 ↔ kv ∈ hostA2)) ∧
    hostA1 ≠ hostA2 ∧
    (storageFinder sumMethods (emptyState counterDesc (some hostOnly)).metric hostA2
      (storageFinder sumMethods (emptyState counterDesc (some hostOnly)).metric hostA1
        (emptyState counterDesc (some hostOnly))).2).1 =
    (storageFinder sumMethods (emptyState counterDesc (some hostOnly)).metric hostA1
      (emptyState counterDesc (some hostOnly))).1 :=
  ⟨rfl, hostOnly_agree, by decide,
    (storageFinder_filter_collapse sumMethods (emptyState counterDesc (some hostOnly)).metric
      hostOnly hostA1 hostA2 (emptyState counterDesc (some hostOnly)) rfl hostOnly_agree).2.1⟩

/-! ## Theorems: mergeDescription -/

/-- The description `mergeDescription` leaves. -/
theorem mergeDescription_description {Config Storage : Type} (st : State Config Storage)
    (d : String) :
    (mergeDescription st d).metric.desc.Description =
      if d.utf8ByteSize > st.metric.desc.Description.utf8ByteSize then d
      else st.metric.desc.Description := by
  unfold mergeDescription
  split_ifs <;> rfl

/-- C10 (longer description wins): `mergeDescription(d)` leaves the
description equal to `d` when `len(d) > len(a)`, `a` being the current
description, and equal to `a` otherwise, and changes nothing else.  Hence for
two descriptions of different lengths, an instrument registered with one and
merged with the other has the longer one, in either order; and merging the
two into any instrument gives the same description in either order.  With "A"
and "AAA" the result is "AAA" both ways. -/
theorem mergeDescription_longer_wins {Config Storage : Type} (st : State Config Storage)
    (d : String) :
    (d.utf8ByteSize > st.metric.desc.Description.utf8ByteSize →
      (mergeDescription st d).metric.desc.Description = d) ∧
    (¬ d.utf8ByteSize > st.metric.desc.Description.utf8ByteSize →
      (mergeDescription st d).metric.desc.Description = st.metric.desc.Description) ∧
    (mergeDescription st d).heap = st.heap ∧
    (mergeDescription st d).metric =
      { st.metric with desc := { st.metric.desc with
          Description := (mergeDescription st d).metric.desc.Description } } ∧
    (∀ (st₁ st₂ : State Config Storage) (d₁ d₂ : String),
      st₁.metric.desc.Description = d₁ → st₂.metric.desc.Description = d₂ →
      d₁.utf8ByteSize < d₂.utf8ByteSize →
      (mergeDescription st₁ d₂).metric.desc.Description = d₂ ∧
      (mergeDescription st₂ d₁).metric.desc.Description = d₂) ∧
    (∀ d₁ d₂ : String, d₁.utf8ByteSize ≠ d₂.utf8ByteSize →
      (mergeDescription (mergeDescription st d₁) d₂).metric.desc.Description =
        (mergeDescription (mergeDescription st d₂) d₁).metric.desc.Description) ∧
    ((mergeDescription (emptyState { counterDesc with Description := "A" } none)
        "AAA").metric.desc.Description = "AAA" ∧
      (mergeDescription (emptyState { counterDesc with Description := "AAA" } none)
        "A").metric.desc.Description = "AAA") := by
  refine ⟨?_, ?_, ?_, ?_, ?_, ?_, by decide⟩
  · intro h
    rw [mergeDescription_description, if_pos h]
  · intro h
    rw [mergeDescription_description, if_neg h]
  · unfold mergeDescription
    split_ifs <;> rfl
  · unfold mergeDescription
    split_ifs <;> rfl
  · intro st₁ st₂ d₁ d₂ h₁ h₂ hlt
    constructor
    · rw [mergeDescription_description, h₁, if_pos hlt]
    · rw [mergeDescription_description, h₂, if_neg (by omega)]
  · intro d₁ d₂ hne
    simp only [mergeDescription_description]
    split_ifs <;> first | rfl | (exfalso; omega)

/-- Witness of C10: merging "AAA" into an instrument described "A". -/
theorem mergeDescription_longer_wins_witness :
    "AAA".utf8ByteSize >
      (emptyState counterDesc none).metric.desc.Description.utf8ByteSize ∧
    (mergeDescription (emptyState counterDesc none) "AAA").metric.desc.Description = "AAA" :=
  ⟨by decide, (mergeDescription_longer_wins (emptyState counterDesc none) "AAA").1 (by decide)⟩

/-! ## Theorems: the output slices -/

section sliceLemmas

variable {T : Type}

theorem data.ReallocateFrom_elems [Inhabited T] (p : Slice T) :
    (data.ReallocateFrom p).elems = p.elems ++ [(data.ReallocateFrom p).last] := by
  unfold data.ReallocateFrom
  cases p.spare <;> simp [Slice.last]

theorem Slice.setLast_elems (s : Slice T) (l : List T) (x v : T) (h : s.elems = l ++ [x]) :
    (s.setLast v).elems = l ++ [v] := by
  simp [Slice.setLast, h]

theorem Slice.setLast_realloc [Inhabited T] (p : Slice T) (v : T) :
    ((data.ReallocateFrom p).setLast v).elems = p.elems ++ [v] :=
  Slice.setLast_elems _ _ _ v (data.ReallocateFrom_elems p)

end sliceLemmas

section appendInstrumentLemmas

variable {Config Storage Aggregation : Type}

/-- The elements of the output `appendInstrument` leaves. -/
theorem appendInstrument_elems (st : State Config Storage)
    (output : Slice (data.Instrument Aggregation)) :
    (appendInstrument st output).2.elems =
      output.elems ++ [{ (data.ReallocateFrom output).last with Descriptor := st.metric.desc }] :=
  Slice.setLast_realloc output _

/-- The descriptors of the output `appendInstrument` leaves. -/
theorem appendInstrument_descriptors (st : State Config Storage)
    (output : Slice (data.Instrument Aggregation)) :
    descriptors (appendInstrument st output).2 = descriptors output ++ [st.metric.desc] := by
  simp [descriptors, appendInstrument_elems]

/-- The descriptors after `appendInstrument` was called for a list of
instruments. -/
theorem appendInstruments_descriptors (sts : List (State Config Storage))
    (output : Slice (data.Instrument Aggregation)) :
    descriptors (appendInstruments sts output) =
      descriptors output ++ sts.map (fun st => st.metric.desc) := by
  induction sts generalizing output with
  | nil => simp [appendInstruments]
  | cons st rest ih =>
    rw [appendInstruments, ih, appendInstrument_descriptors]
    simp

end appendInstrumentLemmas

section appendLemmas

variable {N Config Storage Aggregation : Type} [Inhabited Storage] [Inhabited Aggregation]

/-- The elements of the Points `appendPoint` leaves. -/
theorem appendPoint_elems (M : Methods N Config Storage Aggregation)
    (st : State Config Storage) (inst : data.Instrument Aggregation) (set : attribute.Set)
    (storage : Ptr) (tempo : Temporality) (start end_ : Time) (reset : Bool) :
    (appendPoint M st inst set storage tempo start end_ reset).2.Points.elems =
      inst.Points.elems ++
        [(appendPoint M st inst set storage tempo start end_ reset).2.Points.last] := by
  rw [appendPoint_last]
  have h : (appendOrReusePoint M inst).1.Points = data.ReallocateFrom inst.Points := by
    unfold appendOrReusePoint
    simp only
    split_ifs <;> rfl
  unfold appendPoint
  simp only [h]
  exact Slice.setLast_realloc _ _

end appendLemmas

/-- C11 (schema stability): `appendInstrument` leaves the instrument and its
memory as they are and lengthens the output by exactly one record, after the
records that were there, whose Descriptor is the instrument's descriptor.  The
output it leaves is the same for every state of the instrument with that
descriptor, whatever its table holds.  Hence the descriptors of a cycle that
appends a list of instruments are the descriptors of these instruments in
their order, and two cycles over instruments with the same descriptors, into
outputs cut back to length zero, give the same descriptor sequence. -/
theorem appendInstrument_schema_stable {Config Storage Aggregation : Type}
    (st : State Config Storage) (output : Slice (data.Instrument Aggregation)) :
    (appendInstrument st output).1 = st ∧
    (appendInstrument st output).2.elems =
      output.elems ++ [(appendInstrument st output).2.last] ∧
    (appendInstrument st output).2.last.Descriptor = st.metric.desc ∧
    (appendInstrument st output).2.elems.length = output.elems.length + 1 ∧
    (∀ st' : State Config Storage, st'.metric.desc = st.metric.desc →
      (appendInstrument st' output).2 = (appendInstrument st output).2) ∧
    (∀ sts : List (State Config Storage),
      descriptors (appendInstruments sts output) =
        descriptors output ++ sts.map (fun s => s.metric.desc)) ∧
    (∀ (sts sts' : List (State Config Storage))
      (output' : Slice (data.Instrument Aggregation)),
      sts.map (fun s => s.metric.desc) = sts'.map (fun s => s.metric.desc) →
      descriptors (appendInstruments sts output.reset) =
        descriptors (appendInstruments sts' output'.reset)) := by
  have hlast : (appendInstrument st output).2.last =
      { (data.ReallocateFrom output).last with Descriptor := st.metric.desc } :=
    Slice.last_setLast _ _
  refine ⟨rfl, ?_, ?_, ?_, ?_, ?_, ?_⟩
  · rw [hlast]; exact appendInstrument_elems st output
  · rw [hlast]
  · rw [appendInstrument_elems]; simp
  · intro st' h
    unfold appendInstrument
    simp only [h]
  · exact fun sts => appendInstruments_descriptors sts output
  · intro sts sts' output' h
    rw [appendInstruments_descriptors, appendInstruments_descriptors, h]
    rfl

/-- Witness of C11: an instrument whose table is empty and one whose table
holds a Storage, with the same descriptor, leave the same output. -/
theorem appendInstrument_schema_stable_witness :
    (emptyState counterDesc none).metric.data = [] ∧
    liveSix.metric.data = [(∅, 0)] ∧
    liveSix.metric.desc = (emptyState counterDesc none).metric.desc ∧
    (appendInstrument liveSix (default : Slice (data.Instrument (Option Ptr)))).2 =
      (appendInstrument (emptyState counterDesc none) default).2 :=
  ⟨rfl, by decide, by decide,
    (appendInstrument_schema_stable (emptyState counterDesc none)
      (default : Slice (data.Instrument (Option Ptr)))).2.2.2.2.1 liveSix (by decide)⟩

/-- C15: a call of `appendPoint` leaves the Points of the instrument with
exactly one more element, after the Points that were there, which are
unchanged; the new Point carries the attribute set, the temporality, the start
time and the end time passed to the call.  The Descriptor of the instrument
is unchanged. -/
theorem appendPoint_appends_one {N Config Storage Aggregation : Type} [Inhabited Storage]
    [Inhabited Aggregation] (M : Methods N Config Storage Aggregation)
    (st : State Config Storage) (inst : data.Instrument Aggregation) (set : attribute.Set)
    (storage : Ptr) (tempo : Temporality) (start end_ : Time) (reset : Bool) :
    (appendPoint M st inst set storage tempo start end_ reset).2.Points.elems =
      inst.Points.elems ++
        [(appendPoint M st inst set storage tempo start end_ reset).2.Points.last] ∧
    (appendPoint M st inst set storage tempo start end_ reset).2.Points.elems.length =
      inst.Points.elems.length + 1 ∧
    (appendPoint M st inst set storage tempo start end_ reset).2.Points.last.Attributes = set ∧
    (appendPoint M st inst set storage tempo start end_ reset).2.Points.last.Temporality
      = tempo ∧
    (appendPoint M st inst set storage tempo start end_ reset).2.Points.last.Start = start ∧
    (appendPoint M st inst set storage tempo start end_ reset).2.Points.last.End = end_ ∧
    (appendPoint M st inst set storage tempo start end_ reset).2.Descriptor =
      inst.Descriptor := by
  refine ⟨appendPoint_elems M st inst set storage tempo start end_ reset, ?_, ?_, ?_, ?_, ?_, ?_⟩
  · rw [appendPoint_elems]; simp
  · rw [appendPoint_last]
  · rw [appendPoint_last]
  · rw [appendPoint_last]
  · rw [appendPoint_last]
  · unfold appendPoint appendOrReusePoint
    simp only
    split_ifs <;> rfl

/-! ## Theorems: recycling -/

section recyclingLemmas

variable {N Config Storage Aggregation : Type} [Inhabited Aggregation]

/-- The pointer `appendOrReusePoint` returns: the pointer `ToStorage` recovers
from the aggregation left in the slot when `ToStorage` reports success, and
nil when it reports a mismatch. -/
theorem appendOrReusePoint_out (M : Methods N Config Storage Aggregation)
    (inst : data.Instrument Aggregation) :
    (appendOrReusePoint M inst).2 =
      if (M.ToStorage (data.ReallocateFrom inst.Points).last.Aggregation).2 = true
      then (M.ToStorage (data.ReallocateFrom inst.Points).last.Aggregation).1
      else none := by
  unfold appendOrReusePoint
  simp only
  split_ifs <;> rfl

end recyclingLemmas

/-- C12 (recycling is only an optimisation): let `Move` and `Copy` honour
their contracts at the state of the live Storage: they overwrite their
destination completely (what they leave there does not depend on what it
held), `Move` leaves its source in the state `Init` gives and `Copy` leaves
its source unchanged.  Take two calls of `appendPoint`, on instruments with
the same Points, that differ in the recycled slot only: in the first
`ToStorage` recovers an output Storage `p` (an allocated cell other than the
live Storage) from the aggregation left in the slot, in the second `ToStorage`
reports a mismatch.  Then the first call uses `p` and allocates nothing, the
second uses a freshly allocated and initialised Storage, and both leave the
live Storage in the same state, leave the same content in their output
Storage, and append a Point with the same attributes, temporality, start and
end whose Aggregation is `ToAggregation` of the output Storage with that same
content: the same Point, and the same Points, whenever `ToAggregation` does
not depend on the address of the Storage. -/
theorem appendPoint_recycling_equivalent {N Config Storage Aggregation : Type}
    [Inhabited Storage] [Inhabited Aggregation] (M : Methods N Config Storage Aggregation)
    (st : State Config Storage) (inst₁ inst₂ : data.Instrument Aggregation)
    (set : attribute.Set) (storage p : Ptr) (tempo : Temporality) (start end_ : Time)
    (reset : Bool)
    (h₁ : M.ToStorage (data.ReallocateFrom inst₁.Points).last.Aggregation = (some p, true))
    (h₂ : (M.ToStorage (data.ReallocateFrom inst₂.Points).last.Aggregation).2 = false)
    (helems : inst₁.Points.elems = inst₂.Points.elems)
    (halloc : storage < st.heap.next) (hp : p ≠ storage)
    (hmove_dst : ∀ b b', (M.Move (st.heap.mem storage) b).2 = (M.Move (st.heap.mem storage) b').2)
    (hcopy_dst : ∀ b b', (M.Copy (st.heap.mem storage) b).2 = (M.Copy (st.heap.mem storage) b').2)
    (hmove_src : ∀ b, (M.Move (st.heap.mem storage) b).1 = M.Init default st.metric.acfg)
    (hcopy_src : ∀ b, (M.Copy (st.heap.mem storage) b).1 = st.heap.mem storage) :
    (appendPoint.outPtr M st inst₁ = p ∧
      (appendPoint.out M st (appendOrReusePoint M inst₁).2).2 = st) ∧
    (appendPoint.outPtr M st inst₂ = st.heap.next ∧
      (appendPoint.out M st (appendOrReusePoint M inst₂).2).2.heap.next = st.heap.next + 1 ∧
      (appendPoint.out M st (appendOrReusePoint M inst₂).2).2.heap.mem st.heap.next =
        M.Init default st.metric.acfg) ∧
    ((appendPoint M st inst₁ set storage tempo start end_ reset).1.heap.mem storage =
        (appendPoint M st inst₂ set storage tempo start end_ reset).1.heap.mem storage ∧
      (appendPoint M st inst₂ set storage tempo start end_ reset).1.heap.mem storage =
        if reset = true then M.Init default st.metric.acfg else st.heap.mem storage) ∧
    (appendPoint M st inst₁ set storage tempo start end_ reset).1.heap.mem p =
      (appendPoint M st inst₂ set storage tempo start end_ reset).1.heap.mem st.heap.next ∧
    ((appendPoint M st inst₁ set storage tempo start end_ reset).2.Points.last =
        { Attributes := set,
          Aggregation := M.ToAggregation p
            ((appendPoint M st inst₁ set storage tempo start end_ reset).1.heap.mem p),
          Temporality := tempo, Start := start, End := end_ } ∧
      (appendPoint M st inst₂ set storage tempo start end_ reset).2.Points.last =
        { Attributes := set,
          Aggregation := M.ToAggregation st.heap.next
            ((appendPoint M st inst₁ set storage tempo start end_ reset).1.heap.mem p),
          Temporality := tempo, Start := start, End := end_ }) ∧
    ((∀ q q' s, M.ToAggregation q s = M.ToAggregation q' s) →
      (appendPoint M st inst₁ set storage tempo start end_ reset).2.Points.last =
        (appendPoint M st inst₂ set storage tempo start end_ reset).2.Points.last ∧
      (appendPoint M st inst₁ set storage tempo start end_ reset).2.Points.elems =
        (appendPoint M st inst₂ set storage tempo start end_ reset).2.Points.elems) ∧
    (appendPoint M st inst₁ set storage tempo start end_ reset).1.metric =
      (appendPoint M st inst₂ set storage tempo start end_ reset).1.metric := by
  have ho₁ : (appendOrReusePoint M inst₁).2 = some p := by
    rw [appendOrReusePoint_out, h₁]
    rfl
  have ho₂ : (appendOrReusePoint M inst₂).2 = none := by
    rw [appendOrReusePoint_out, h₂]
    rfl
  have hne₁ : (appendOrReusePoint M inst₁).2 ≠ some storage := by
    rw [ho₁]
    intro h
    exact hp (Option.some.inj h)
  have hne₂ : (appendOrReusePoint M inst₂).2 ≠ some storage := by
    rw [ho₂]
    exact fun h => Option.noConfusion h
  have hout₁ : appendPoint.outPtr M st inst₁ = p := by
    unfold appendPoint.outPtr
    rw [ho₁]
    rfl
  have hout₂ : appendPoint.outPtr M st inst₂ = st.heap.next := by
    unfold appendPoint.outPtr
    rw [ho₂]
    rfl
  have hdst : ∀ b b', ((if reset = true then M.Move else M.Copy) (st.heap.mem storage) b).2 =
      ((if reset = true then M.Move else M.Copy) (st.heap.mem storage) b').2 := by
    intro b b'
    cases reset
    · exact hcopy_dst b b'
    · exact hmove_dst b b'
  have hsrc : ∀ b, ((if reset = true then M.Move else M.Copy) (st.heap.mem storage) b).1 =
      if reset = true then M.Init default st.metric.acfg else st.heap.mem storage := by
    intro b
    cases reset
    · exact hcopy_src b
    · exact hmove_src b
  obtain ⟨b₁, hsrc₁, hdst₁⟩ :=
    appendPoint_cells M st inst₁ set storage tempo start end_ reset halloc hne₁
  obtain ⟨b₂, hsrc₂, hdst₂⟩ :=
    appendPoint_cells M st inst₂ set storage tempo start end_ reset halloc hne₂
  rw [hout₁] at hdst₁
  rw [hout₂] at hdst₂
  have hcontent :
      (appendPoint M st inst₁ set storage tempo start end_ reset).1.heap.mem p =
      (appendPoint M st inst₂ set storage tempo start end_ reset).1.heap.mem st.heap.next := by
    rw [hdst₁, hdst₂]
    exact hdst b₁ b₂
  have hlast₁ := appendPoint_last M st inst₁ set storage tempo start end_ reset
  have hlast₂ := appendPoint_last M st inst₂ set storage tempo start end_ reset
  rw [hout₁] at hlast₁
  rw [hout₂, ← hcontent] at hlast₂
  refine ⟨⟨hout₁, ?_⟩, ⟨hout₂, ?_, ?_⟩, ⟨?_, ?_⟩, hcontent, ⟨hlast₁, hlast₂⟩, ?_, ?_⟩
  · rw [ho₁]
    rfl
  · rw [ho₂]
    exact newStorage_next M st
  · rw [ho₂]
    exact newStorage_mem_new M st
  · rw [hsrc₁, hsrc₂, hsrc b₁, hsrc b₂]
  · rw [hsrc₂, hsrc b₂]
  · intro hagg
    have hsame :
        (appendPoint M st inst₁ set storage tempo start end_ reset).2.Points.last =
        (appendPoint M st inst₂ set storage tempo start end_ reset).2.Points.last := by
      rw [hlast₁, hlast₂, hagg p st.heap.next]
    refine ⟨hsame, ?_⟩
    rw [appendPoint_elems, appendPoint_elems M st inst₂, hsame, helems]
  · rw [appendPoint_state, appendPoint_state]
    show (appendPoint.out M st _).2.metric = (appendPoint.out M st _).2.metric
    rw [appendPoint.out_metric, appendPoint.out_metric]

/-- Witness of C12: with the sum aggregator, the call that recycles the
Storage at address 1, which holds 5, and the call whose slot holds no
aggregation, so that `ToStorage` reports a mismatch and address 2 is
allocated, leave the same live Storage and the same content in the output
Storage. -/
theorem appendPoint_recycling_equivalent_witness :
    sumMethods.ToStorage (data.ReallocateFrom recycledInst.Points).last.Aggregation =
      (some 1, true) ∧
    (sumMethods.ToStorage (data.ReallocateFrom freshInst.Points).last.Aggregation).2 = false ∧
    recycledInst.Points.elems = freshInst.Points.elems ∧
    (0 : Ptr) < liveSixStale.heap.next ∧ (1 : Ptr) ≠ 0 ∧
    liveSixStale.heap.mem 1 = 5 ∧ liveSixStale.heap.next = 2 ∧
    (appendPoint sumMethods liveSixStale recycledInst ∅ 0 DeltaTemporality 0 1
        true).1.heap.mem 0 =
      (appendPoint sumMethods liveSixStale freshInst ∅ 0 DeltaTemporality 0 1
        true).1.heap.mem 0 ∧
    (appendPoint sumMethods liveSixStale recycledInst ∅ 0 DeltaTemporality 0 1
        true).1.heap.mem 1 =
      (appendPoint sumMethods liveSixStale freshInst ∅ 0 DeltaTemporality 0 1
        true).1.heap.mem liveSixStale.heap.next :=
  ⟨by decide, by decide, rfl, by decide, by decide, by decide, by decide,
    (appendPoint_recycling_equivalent sumMethods liveSixStale recycledInst freshInst ∅ 0 1
      DeltaTemporality 0 1 true (by decide) (by decide) rfl (by decide) (by decide)
      (fun _ _ => rfl) (fun _ _ => rfl) (fun _ => rfl) (fun _ => rfl)).2.2.1.1,
    (appendPoint_recycling_equivalent sumMethods liveSixStale recycledInst freshInst ∅ 0 1
      DeltaTemporality 0 1 true (by decide) (by decide) rfl (by decide) (by decide)
      (fun _ _ => rfl) (fun _ _ => rfl) (fun _ => rfl) (fun _ => rfl)).2.2.2.1⟩

/-! ## Theorems: singleCount and interceptor -/

section interceptorLemmas

variable (u : Char → Char) (A : String → Except String Int)

theorem HasPrefix_otlp_of_invalid (s : String)
    (h : strings.HasPrefix s invalidTrailerPrefix = true) :
    strings.HasPrefix s "otlp-" = true := by
  unfold strings.HasPrefix at *
  rw [List.isPrefixOf_iff_prefix] at *
  exact List.IsPrefix.trans ⟨"invalid-".data, rfl⟩ h

theorem interceptor.step_no_otlp (ds : dropSummary) (e : String × List String)
    (h : strings.HasPrefix (strings.ToLower u e.1) "otlp-" = false) :
    interceptor.step u A ds e = ds := by
  simp [interceptor.step, h]

theorem interceptor.step_Points_keep (ds : dropSummary) (e : String × List String)
    (h : strings.ToLower u e.1 = "otlp-points-dropped" →
      ∃ err, singleCount A e.2 = .error err) :
    (interceptor.step u A ds e).Points = ds.Points := by
  unfold interceptor.step
  simp only
  split_ifs with h1 h2 h3 h4
  · obtain ⟨err, herr⟩ := h h2
    simp only [herr]
  · split <;> rfl
  · rfl
  · rfl
  · rfl

theorem interceptor.step_Points_set (ds : dropSummary) (e : String × List String) (n : Int)
    (hk : strings.ToLower u e.1 = "otlp-points-dropped") (hn : singleCount A e.2 = .ok n) :
    (interceptor.step u A ds e).Points = n := by
  unfold interceptor.step
  simp only [hk, hn]
  rfl

theorem interceptor.step_Points_cases (ds : dropSummary) (e : String × List String) :
    (interceptor.step u A ds e).Points = ds.Points ∨
    (strings.ToLower u e.1 = "otlp-points-dropped" ∧
      singleCount A e.2 = .ok (interceptor.step u A ds e).Points) := by
  by_cases hk : strings.ToLower u e.1 = "otlp-points-dropped"
  · cases hn : singleCount A e.2 with
    | error err => exact Or.inl (interceptor.step_Points_keep u A ds e (fun _ => ⟨err, hn⟩))
    | ok n =>
      right
      rw [interceptor.step_Points_set u A ds e n hk hn]
      exact ⟨hk, rfl⟩
  · exact Or.inl (interceptor.step_Points_keep u A ds e (fun h => absurd h hk))

theorem interceptor.step_Metrics_keep (ds : dropSummary) (e : String × List String)
    (h : strings.ToLower u e.1 = "otlp-metrics-dropped" →
      ∃ err, singleCount A e.2 = .error err) :
    (interceptor.step u A ds e).Metrics = ds.Metrics := by
  unfold interceptor.step
  simp only
  split_ifs with h1 h2 h3 h4
  · split <;> rfl
  · obtain ⟨err, herr⟩ := h h3
    simp only [herr]
  · rfl
  · rfl
  · rfl

theorem interceptor.step_Metrics_set (ds : dropSummary) (e : String × List String) (n : Int)
    (hk : strings.ToLower u e.1 = "otlp-metrics-dropped") (hn : singleCount A e.2 = .ok n) :
    (interceptor.step u A ds e).Metrics = n := by
  unfold interceptor.step
  simp only [hk, hn]
  rfl

theorem interceptor.step_Metrics_cases (ds : dropSummary) (e : String × List String) :
    (interceptor.step u A ds e).Metrics = ds.Metrics ∨
    (strings.ToLower u e.1 = "otlp-metrics-dropped" ∧
      singleCount A e.2 = .ok (interceptor.step u A ds e).Metrics) := by
  by_cases hk : strings.ToLower u e.1 = "otlp-metrics-dropped"
  · cases hn : singleCount A e.2 with
    | error err => exact Or.inl (interceptor.step_Metrics_keep u A ds e (fun _ => ⟨err, hn⟩))
    | ok n =>
      right
      rw [interceptor.step_Metrics_set u A ds e n hk hn]
      exact ⟨hk, rfl⟩
  · exact Or.inl (interceptor.step_Metrics_keep u A ds e (fun h => absurd h hk))

theorem interceptor.step_Examples_keep (ds : dropSummary) (e : String × List String)
    (h : strings.HasPrefix (strings.ToLower u e.1) invalidTrailerPrefix = false) :
    (interceptor.step u A ds e).Examples = ds.Examples := by
  unfold interceptor.step
  simp only
  split_ifs with h1 h2 h3 h4
  · split <;> rfl
  · split <;> rfl
  · rw [h] at h4
    exact absurd h4 (by decide)
  · rfl
  · rfl

theorem interceptor.step_Examples_add (ds : dropSummary) (e : String × List String)
    (h : strings.HasPrefix (strings.ToLower u e.1) invalidTrailerPrefix = true) :
    ∃ x, (interceptor.step u A ds e).Examples = ds.Examples ++ [x] := by
  have h0 := HasPrefix_otlp_of_invalid _ h
  have h1 : strings.ToLower u e.1 ≠ "otlp-points-dropped" := by
    intro hk
    rw [hk] at h
    exact absurd h (by decide)
  have h2 : strings.ToLower u e.1 ≠ "otlp-metrics-dropped" := by
    intro hk
    rw [hk] at h
    exact absurd h (by decide)
  unfold interceptor.step
  simp only [h0, h1, h2, h, not_true_eq_false, if_false, if_true]
  exact ⟨_, rfl⟩

theorem interceptor.step_Examples_length (ds : dropSummary) (e : String × List String) :
    ds.Examples.length ≤ (interceptor.step u A ds e).Examples.length := by
  cases h : strings.HasPrefix (strings.ToLower u e.1) invalidTrailerPrefix with
  | false => rw [interceptor.step_Examples_keep u A ds e h]
  | true =>
    obtain ⟨x, hx⟩ := interceptor.step_Examples_add u A ds e h
    rw [hx]
    simp

theorem interceptor.loop_no_otlp (md : MD) (ds : dropSummary)
    (h : ∀ e ∈ md, strings.HasPrefix (strings.ToLower u e.1) "otlp-" = false) :
    interceptor.loop u A md ds = ds := by
  induction md generalizing ds with
  | nil => rfl
  | cons e rest ih =>
    rw [interceptor.loop, interceptor.step_no_otlp u A ds e (h e (List.mem_cons_self _ _))]
    exact ih ds (fun x hx => h x (List.mem_cons_of_mem _ hx))

theorem interceptor.loop_Points_keep (md : MD) (ds : dropSummary)
    (h : ∀ e ∈ md, strings.ToLower u e.1 = "otlp-points-dropped" →
      ∃ err, singleCount A e.2 = .error err) :
    (interceptor.loop u A md ds).Points = ds.Points := by
  induction md generalizing ds with
  | nil => rfl
  | cons e rest ih =>
    rw [interceptor.loop, ih _ (fun x hx => h x (List.mem_cons_of_mem _ hx))]
    exact interceptor.step_Points_keep u A ds e (h e (List.mem_cons_self _ _))

theorem interceptor.loop_Metrics_keep (md : MD) (ds : dropSummary)
    (h : ∀ e ∈ md, strings.ToLower u e.1 = "otlp-metrics-dropped" →
      ∃ err, singleCount A e.2 = .error err) :
    (interceptor.loop u A md ds).Metrics = ds.Metrics := by
  induction md generalizing ds with
  | nil => rfl
  | cons e rest ih =>
    rw [interceptor.loop, ih _ (fun x hx => h x (List.mem_cons_of_mem _ hx))]
    exact interceptor.step_Metrics_keep u A ds e (h e (List.mem_cons_self _ _))

theorem interceptor.loop_Points_cases (md : MD) (ds : dropSummary) :
    (interceptor.loop u A md ds).Points = ds.Points ∨
    ∃ e ∈ md, strings.ToLower u e.1 = "otlp-points-dropped" ∧
      singleCount A e.2 = .ok (interceptor.loop u A md ds).Points := by
  induction md generalizing ds with
  | nil => exact Or.inl rfl
  | cons e rest ih =>
    rw [interceptor.loop]
    rcases ih (interceptor.step u A ds e) with h | ⟨x, hx, hk, hn⟩
    · rcases interceptor.step_Points_cases u A ds e with h' | ⟨hk, hn⟩
      · exact Or.inl (h.trans h')
      · right
        exact ⟨e, List.mem_cons_self _ _, hk, by rw [h]; exact hn⟩
    · exact Or.inr ⟨x, List.mem_cons_of_mem _ hx, hk, hn⟩

theorem interceptor.loop_Metrics_cases (md : MD) (ds : dropSummary) :
    (interceptor.loop u A md ds).Metrics = ds.Metrics ∨
    ∃ e ∈ md, strings.ToLower u e.1 = "otlp-metrics-dropped" ∧
      singleCount A e.2 = .ok (interceptor.loop u A md ds).Metrics := by
  induction md generalizing ds with
  | nil => exact Or.inl rfl
  | cons e rest ih =>
    rw [interceptor.loop]
    rcases ih (interceptor.step u A ds e) with h | ⟨x, hx, hk, hn⟩
    · rcases interceptor.step_Metrics_cases u A ds e with h' | ⟨hk, hn⟩
      · exact Or.inl (h.trans h')
      · right
        exact ⟨e, List.mem_cons_self _ _, hk, by rw [h]; exact hn⟩
    · exact Or.inr ⟨x, List.mem_cons_of_mem _ hx, hk, hn⟩

theorem interceptor.loop_Points_unique (md : MD) (ds : dropSummary)
    (hnd : (md.map (fun e => strings.ToLower u e.1)).Nodup) (e : String × List String)
    (he : e ∈ md) (n : Int) (hk : strings.ToLower u e.1 = "otlp-points-dropped")
    (hn : singleCount A e.2 = .ok n) :
    (interceptor.loop u A md ds).Points = n := by
  induction md generalizing ds with
  | nil => exact absurd he (List.not_mem_nil _)
  | cons x rest ih =>
    rw [List.map_cons, List.nodup_cons] at hnd
    rw [interceptor.loop]
    rcases List.mem_cons.1 he with hx | hx
    · subst hx
      rw [interceptor.loop_Points_keep u A rest _ (fun y hy hky => absurd
        (List.mem_map.2 ⟨y, hy, hky.trans hk.symm⟩) hnd.1)]
      exact interceptor.step_Points_set u A ds e n hk hn
    · exact ih _ hnd.2 hx

theorem interceptor.loop_Metrics_unique (md : MD) (ds : dropSummary)
    (hnd : (md.map (fun e => strings.ToLower u e.1)).Nodup) (e : String × List String)
    (he : e ∈ md) (n : Int) (hk : strings.ToLower u e.1 = "otlp-metrics-dropped")
    (hn : singleCount A e.2 = .ok n) :
    (interceptor.loop u A md ds).Metrics = n := by
  induction md generalizing ds with
  | nil => exact absurd he (List.not_mem_nil _)
  | cons x rest ih =>
    rw [List.map_cons, List.nodup_cons] at hnd
    rw [interceptor.loop]
    rcases List.mem_cons.1 he with hx | hx
    · subst hx
      rw [interceptor.loop_Metrics_keep u A rest _ (fun y hy hky => absurd
        (List.mem_map.2 ⟨y, hy, hky.trans hk.symm⟩) hnd.1)]
      exact interceptor.step_Metrics_set u A ds e n hk hn
    · exact ih _ hnd.2 hx

theorem interceptor.loop_Examples_length (md : MD) (ds : dropSummary) :
    ds.Examples.length ≤ (interceptor.loop u A md ds).Examples.length := by
  induction md generalizing ds with
  | nil => exact Nat.le_refl _
  | cons e rest ih =>
    rw [interceptor.loop]
    exact Nat.le_trans (interceptor.step_Examples_length u A ds e) (ih _)

theorem interceptor.loop_Examples_keep (md : MD) (ds : dropSummary)
    (h : ∀ e ∈ md, strings.HasPrefix (strings.ToLower u e.1) invalidTrailerPrefix = false) :
    (interceptor.loop u A md ds).Examples = ds.Examples := by
  induction md generalizing ds with
  | nil => rfl
  | cons e rest ih =>
    rw [interceptor.loop, ih _ (fun x hx => h x (List.mem_cons_of_mem _ hx))]
    exact interceptor.step_Examples_keep u A ds e (h e (List.mem_cons_self _ _))

theorem interceptor.loop_Examples_pos (md : MD) (ds : dropSummary)
    (h : ∃ e ∈ md, strings.HasPrefix (strings.ToLower u e.1) invalidTrailerPrefix = true) :
    0 < (interceptor.loop u A md ds).Examples.length := by
  induction md generalizing ds with
  | nil =>
    obtain ⟨e, he, _⟩ := h
    exact absurd he (List.not_mem_nil _)
  | cons x rest ih =>
    obtain ⟨e, he, hp⟩ := h
    rw [interceptor.loop]
    rcases List.mem_cons.1 he with hx | hx
    · subst hx
      obtain ⟨y, hy⟩ := interceptor.step_Examples_add u A ds e hp
      have := interceptor.loop_Examples_length u A rest (interceptor.step u A ds e)
      rw [hy] at this
      simp at this
      omega
    · exact ih _ ⟨e, hx, hp⟩

theorem dropSummary.Empty_eq_false_iff (ds : dropSummary) :
    ds.Empty = false ↔ 0 < ds.Examples.length ∨ ds.Points ≠ 0 ∨ ds.Metrics ≠ 0 := by
  unfold dropSummary.Empty
  simp only [Bool.and_eq_false_iff, beq_eq_false_iff_ne, ne_eq]
  constructor
  · rintro ((h | h) | h)
    · exact Or.inl (Nat.pos_of_ne_zero h)
    · exact Or.inr (Or.inl h)
    · exact Or.inr (Or.inr h)
  · rintro (h | h | h)
    · exact Or.inl (Or.inl (Nat.ne_of_gt h))
    · exact Or.inl (Or.inr h)
    · exact Or.inr h

/-- The calls of `otel.Handle` that `interceptor` makes. -/
theorem interceptor_handled (err : Option String) (md : Option MD) :
    (interceptor u A (err, md)).2 =
      match err, md with
      | none, some m =>
        if (interceptor.summary u A m).Empty = false then [interceptor.summary u A m] else []
      | _, _ => [] := by
  rcases err with _ | e <;> rcases md with _ | m
  · rfl
  · cases h : (interceptor.summary u A m).Empty <;> simp [interceptor, h]
  · rfl
  · rfl

end interceptorLemmas

/-- C14: whatever trailers the transport returns, `interceptor` returns exactly
the error the invoker returned: a successful call stays successful when drops
are reported, and the error of a failing call is returned as it is.  With a
dropped-points trailer of 3 and no error, the drop is reported and the result
is still no error. -/
theorem interceptor_returns_invoker_error (u : Char → Char)
    (A : String → Except String Int) (err : Option String) (md : Option MD) :
    (interceptor u A (err, md)).1 = err ∧
    interceptor asciiLower exampleAtoi (none, some [("otlp-points-dropped", ["3"])]) =
      (none, [{ Points := 3 }]) ∧
    interceptor asciiLower exampleAtoi
      (some "unavailable", some [("otlp-points-dropped", ["3"])]) =
      (some "unavailable", []) := by
  refine ⟨?_, by decide, by decide⟩
  rcases err with _ | e <;> rcases md with _ | m
  · rfl
  · cases h : (interceptor.summary u A m).Empty <;> simp [interceptor, h]
  · rfl
  · rfl

/-- Counterexample to C16 as stated.  The trailer `otlp-points-dropped` gives
the non-zero count 3, and the trailer `OTLP-Points-Dropped`, visited after it,
gives 0 under the same lower-cased key: the summary is empty and nothing is
reported.  And the only key of the trailers `OTLP-Invalid-Name` does not start
with `otlp-invalid-`, no count is given, yet a partial failure is reported. -/
theorem interceptor_report_differs :
    singleCount exampleAtoi ["3"] = .ok 3 ∧
    interceptor asciiLower exampleAtoi
      (none, some [("otlp-points-dropped", ["3"]), ("OTLP-Points-Dropped", ["0"])]) =
      (none, []) ∧
    strings.HasPrefix "OTLP-Invalid-Name" invalidTrailerPrefix = false ∧
    interceptor asciiLower exampleAtoi (none, some [("OTLP-Invalid-Name", ["x"])]) =
      (none, [{ Examples := [{ Reason := "name", Names := ["x"] }] }]) :=
  ⟨rfl, by decide, by decide, by decide⟩

/-- C16, amended: `interceptor` reports a partial failure exactly when the
invoker returned no error, returned trailers, and the drop summary built from
them is not empty; it then reports that summary, once.  It reports nothing
when the invoker failed, and nothing when no lower-cased trailer key starts
with `otlp-`.  A summary that is not empty comes from a trailer whose
lower-cased key is `otlp-points-dropped` or `otlp-metrics-dropped` and whose
single value parses to a non-zero count, or from a trailer whose lower-cased
key starts with `otlp-invalid-`; conversely, when no two trailer keys are
equal after lower-casing, each such trailer makes the summary not empty. -/
theorem interceptor_reports_iff (u : Char → Char) (A : String → Except String Int)
    (err : Option String) (md : Option MD) :
    ((interceptor u A (err, md)).2 ≠ [] ↔
      err = none ∧ ∃ m, md = some m ∧ (interceptor.summary u A m).Empty = false) ∧
    (∀ m, err = none → md = some m → (interceptor.summary u A m).Empty = false →
      (interceptor u A (err, md)).2 = [interceptor.summary u A m]) ∧
    (err ≠ none → (interceptor u A (err, md)).2 = []) ∧
    (∀ m, md = some m →
      (∀ e ∈ m, strings.HasPrefix (strings.ToLower u e.1) "otlp-" = false) →
      (interceptor u A (err, md)).2 = []) ∧
    (∀ m : MD, (interceptor.summary u A m).Empty = false →
      (∃ e ∈ m, strings.ToLower u e.1 = "otlp-points-dropped" ∧
        ∃ n, singleCount A e.2 = .ok n ∧ n ≠ 0) ∨
      (∃ e ∈ m, strings.ToLower u e.1 = "otlp-metrics-dropped" ∧
        ∃ n, singleCount A e.2 = .ok n ∧ n ≠ 0) ∨
      (∃ e ∈ m, strings.HasPrefix (strings.ToLower u e.1) invalidTrailerPrefix = true)) ∧
    (∀ m : MD, (m.map (fun e => strings.ToLower u e.1)).Nodup →
      ((∃ e ∈ m, strings.ToLower u e.1 = "otlp-points-dropped" ∧
        ∃ n, singleCount A e.2 = .ok n ∧ n ≠ 0) ∨
      (∃ e ∈ m, strings.ToLower u e.1 = "otlp-metrics-dropped" ∧
        ∃ n, singleCount A e.2 = .ok n ∧ n ≠ 0) ∨
      (∃ e ∈ m, strings.HasPrefix (strings.ToLower u e.1) invalidTrailerPrefix = true)) →
      (interceptor.summary u A m).Empty = false) := by
  refine ⟨?_, ?_, ?_, ?_, ?_, ?_⟩
  · rw [interceptor_handled]
    rcases err with _ | e <;> rcases md with _ | m
    · simp
    · cases h : (interceptor.summary u A m).Empty <;> simp [h]
    · simp
    · simp
  · intro m he hm hs
    rw [interceptor_handled, he, hm]
    simp [hs]
  · intro he
    rw [interceptor_handled]
    rcases err with _ | e
    · exact absurd rfl he
    · rfl
  · intro m hm h
    rw [interceptor_handled, hm]
    rcases err with _ | e
    · have hs : interceptor.summary u A m = {} := interceptor.loop_no_otlp u A m {} h
      simp only [hs]
      rfl
    · rfl
  · intro m hs
    rw [dropSummary.Empty_eq_false_iff] at hs
    rcases hs with hs | hs | hs
    · right; right
      by_contra hcon
      have hall : ∀ e ∈ m,
          strings.HasPrefix (strings.ToLower u e.1) invalidTrailerPrefix = false := by
        intro e he
        cases hp : strings.HasPrefix (strings.ToLower u e.1) invalidTrailerPrefix with
        | false => rfl
        | true => exact absurd ⟨e, he, hp⟩ hcon
      have := interceptor.loop_Examples_keep u A m {} hall
      unfold interceptor.summary at hs
      rw [this] at hs
      exact absurd hs (by decide)
    · left
      rcases interceptor.loop_Points_cases u A m {} with h | ⟨e, he, hk, hn⟩
      · exact absurd h hs
      · exact ⟨e, he, hk, _, hn, hs⟩
    · right; left
      rcases interceptor.loop_Metrics_cases u A m {} with h | ⟨e, he, hk, hn⟩
      · exact absurd h hs
      · exact ⟨e, he, hk, _, hn, hs⟩
  · intro m hnd h
    rw [dropSummary.Empty_eq_false_iff]
    rcases h with ⟨e, he, hk, n, hn, hn0⟩ | ⟨e, he, hk, n, hn, hn0⟩ | h
    · right; left
      unfold interceptor.summary
      rw [interceptor.loop_Points_unique u A m {} hnd e he n hk hn]
      exact hn0
    · right; right
      unfold interceptor.summary
      rw [interceptor.loop_Metrics_unique u A m {} hnd e he n hk hn]
      exact hn0
    · left
      exact interceptor.loop_Examples_pos u A m {} h

/-- Witness of C16 amended: nothing is reported for a failing call, and a
single dropped-points trailer of 3 makes the summary not empty. -/
theorem interceptor_reports_iff_witness :
    (some "unavailable" : Option String) ≠ none ∧
    (interceptor asciiLower exampleAtoi
      (some "unavailable", some [("otlp-points-dropped", ["3"])])).2 = [] ∧
    ([("otlp-points-dropped", ["3"])].map
      (fun e : String × List String => strings.ToLower asciiLower e.1)).Nodup ∧
    (interceptor.summary asciiLower exampleAtoi [("otlp-points-dropped", ["3"])]).Empty
      = false :=
  ⟨by decide,
    (interceptor_reports_iff asciiLower exampleAtoi (some "unavailable")
      (some [("otlp-points-dropped", ["3"])])).2.2.1 (by decide),
    by decide,
    (interceptor_reports_iff asciiLower exampleAtoi none none).2.2.2.2.2
      [("otlp-points-dropped", ["3"])] (by decide)
      (Or.inl ⟨("otlp-points-dropped", ["3"]), List.mem_singleton.2 rfl, by decide, 3, rfl,
        by decide⟩)⟩

/-- C17: `singleCount` returns `errNoSingleCount` exactly when the value list
does not have exactly one element; on a list of one element it returns what
`strconv.Atoi` returns for that element.  Hence a trailer whose lower-cased
key is `otlp-points-dropped` or `otlp-metrics-dropped` and which has no value,
several values, or one value that does not parse, leaves the drop summary as
it is; and when every trailer for a count is of that kind, the count of the
summary is 0. -/
theorem singleCount_one_value (A : String → Except String Int) (values : List String) :
    (singleCount A values = .error CountError.errNoSingleCount ↔ values.length ≠ 1) ∧
    (∀ v n, values = [v] → A v = .ok n → singleCount A values = .ok n) ∧
    (∀ v err, values = [v] → A v = .error err →
      singleCount A values = .error (CountError.atoi err)) ∧
    (∀ (u : Char → Char) (ds : dropSummary) (key : String),
      strings.ToLower u key = "otlp-points-dropped" ∨
        strings.ToLower u key = "otlp-metrics-dropped" →
      values.length ≠ 1 ∨ (∃ v err, values = [v] ∧ A v = .error err) →
      interceptor.step u A ds (key, values) = ds) ∧
    (∀ (u : Char → Char) (m : MD),
      (∀ e ∈ m, strings.ToLower u e.1 = "otlp-points-dropped" →
        e.2.length ≠ 1 ∨ ∃ v err, e.2 = [v] ∧ A v = .error err) →
      (interceptor.summary u A m).Points = 0) ∧
    (∀ (u : Char → Char) (m : MD),
      (∀ e ∈ m, strings.ToLower u e.1 = "otlp-metrics-dropped" →
        e.2.length ≠ 1 ∨ ∃ v err, e.2 = [v] ∧ A v = .error err) →
      (interceptor.summary u A m).Metrics = 0) := by
  have hfail : ∀ vs : List String,
      vs.length ≠ 1 ∨ (∃ v err, vs = [v] ∧ A v = .error err) →
      ∃ err, singleCount A vs = .error err := by
    intro vs h
    rcases h with h | ⟨v, err, hv, ha⟩
    · match vs, h with
      | [], _ => exact ⟨_, rfl⟩
      | [v], h => exact absurd rfl h
      | _ :: _ :: _, _ => exact ⟨_, rfl⟩
    · subst hv
      exact ⟨CountError.atoi err, by simp [singleCount, ha]⟩
  refine ⟨?_, ?_, ?_, ?_, ?_, ?_⟩
  · match values with
    | [] => simp [singleCount]
    | [v] =>
      cases ha : A v <;> simp [singleCount, ha]
    | _ :: _ :: _ => simp [singleCount]
  · intro v n hv ha
    subst hv
    simp [singleCount, ha]
  · intro v err hv ha
    subst hv
    simp [singleCount, ha]
  · intro u ds key hk hv
    obtain ⟨err, herr⟩ := hfail values hv
    have hp : strings.HasPrefix (strings.ToLower u key) "otlp-" = true := by
      rcases hk with hk | hk <;> rw [hk] <;> decide
    unfold interceptor.step
    simp only [hp, herr, not_true_eq_false, if_false]
    rcases hk with hk | hk
    · rw [if_pos hk]
    · rw [if_neg (by rw [hk]; decide), if_pos hk]
  · intro u m h
    exact interceptor.loop_Points_keep u A m {} (fun e he hk => hfail e.2 (h e he hk))
  · intro u m h
    exact interceptor.loop_Metrics_keep u A m {} (fun e he hk => hfail e.2 (h e he hk))

/-- Witness of C17: a dropped-points trailer with two values leaves the count
at 0, and a list of one value is parsed. -/
theorem singleCount_one_value_witness :
    (∀ e ∈ ([("otlp-points-dropped", ["3", "7"])] : MD),
      strings.ToLower asciiLower e.1 = "otlp-points-dropped" →
      e.2.length ≠ 1 ∨ ∃ v err, e.2 = [v] ∧ exampleAtoi v = .error err) ∧
    (interceptor.summary asciiLower exampleAtoi [("otlp-points-dropped", ["3", "7"])]).Points
      = 0 ∧
    singleCount exampleAtoi ["7"] = .ok 7 :=
  ⟨fun e he _ => Or.inl (by rw [List.mem_singleton.1 he]; decide),
    (singleCount_one_value exampleAtoi []).2.2.2.2.1 asciiLower
      [("otlp-points-dropped", ["3", "7"])]
      (fun e he _ => Or.inl (by rw [List.mem_singleton.1 he]; decide)),
    (singleCount_one_value exampleAtoi ["7"]).2.1 "7" 7 rfl rfl⟩

/-! ## Theorems: NewMetricsPipeline, case of the preference, Valid -/

/-- C13: when `ReportingPeriod` is not empty and either does not parse as a
duration or parses to a duration that is zero or negative,
`NewMetricsPipeline` returns an error and no shutdown function, having done
nothing: no exporter, no SDK, no meter provider.  An empty `ReportingPeriod`
passes the check with the default of 30 seconds, which is the period the
Lightstep SDK and the old controller are then created with. -/
theorem NewMetricsPipeline_rejects_period (env : Env) (c : PipelineConfig) :
    (c.ReportingPeriod ≠ "" →
      (∃ err, env.ParseDuration c.ReportingPeriod = .error err) ∨
        (∃ d, env.ParseDuration c.ReportingPeriod = .ok d ∧ d ≤ 0) →
      ∃ msg, NewMetricsPipeline env c = (.error msg, [])) ∧
    (c.ReportingPeriod = "" →
      NewMetricsPipeline.period env.ParseDuration c = .ok (30 * time.Second)) ∧
    (∀ sel old, c.ReportingPeriod = "" → tempoOptions env.toLowerRune c = .ok (sel, old) →
      env.newExporter = none → c.UseLightstepMetricsSDK = true →
      NewMetricsPipeline env c =
        (.ok Shutdown.sdkShutdown,
          [Event.newMetricsExporter, Event.NewMeterProvider (30 * time.Second)] ++
            NewMetricsPipeline.finish env c)) ∧
    (∀ sel old, c.ReportingPeriod = "" → tempoOptions env.toLowerRune c = .ok (sel, old) →
      env.newExporter = none → env.controllerStart = none →
      c.UseLightstepMetricsSDK = false →
      NewMetricsPipeline env c =
        (.ok Shutdown.controllerStop,
          [Event.newOldMetricsExporter old, Event.controllerNew (30 * time.Second),
            Event.controllerStart] ++ NewMetricsPipeline.finish env c)) := by
  have hdef : c.ReportingPeriod = "" →
      NewMetricsPipeline.period env.ParseDuration c = .ok (30 * time.Second) := by
    intro h
    simp [NewMetricsPipeline.period, h]
  refine ⟨?_, hdef, ?_, ?_⟩
  · intro hne h
    have hperiod : ∃ msg, NewMetricsPipeline.period env.ParseDuration c = .error msg := by
      unfold NewMetricsPipeline.period
      simp only [hne, ne_eq, not_false_eq_true, if_true]
      rcases h with ⟨err, herr⟩ | ⟨d, hd, hle⟩
      · rw [herr]
        exact ⟨_, rfl⟩
      · rw [hd]
        simp only [hle, if_true]
        exact ⟨_, rfl⟩
    obtain ⟨msg, hmsg⟩ := hperiod
    exact ⟨msg, by simp [NewMetricsPipeline, hmsg]⟩
  · intro sel old h ht he hu
    simp [NewMetricsPipeline, hdef h, ht, he, hu]
  · intro sel old h ht he hs hu
    simp [NewMetricsPipeline, hdef h, ht, he, hs, hu]

/-- Witness of C13: the periods "0s", "-5s" and "abc" are rejected before
anything is created. -/
theorem NewMetricsPipeline_rejects_period_witness :
    ("0s" : String) ≠ "" ∧ exampleParseDuration "0s" = .ok 0 ∧
    (∃ msg, NewMetricsPipeline exampleEnv { ReportingPeriod := "0s" } = (.error msg, [])) ∧
    (∃ msg, NewMetricsPipeline exampleEnv { ReportingPeriod := "-5s" } = (.error msg, [])) ∧
    (∃ msg, NewMetricsPipeline exampleEnv { ReportingPeriod := "abc" } = (.error msg, [])) :=
  ⟨by decide, rfl,
    (NewMetricsPipeline_rejects_period exampleEnv { ReportingPeriod := "0s" }).1 (by decide)
      (Or.inr ⟨0, rfl, by decide⟩),
    (NewMetricsPipeline_rejects_period exampleEnv { ReportingPeriod := "-5s" }).1 (by decide)
      (Or.inr ⟨-5 * time.Second, rfl, by decide⟩),
    (NewMetricsPipeline_rejects_period exampleEnv { ReportingPeriod := "abc" }).1 (by decide)
      (Or.inl ⟨_, rfl⟩)⟩

/-- C18: for two preferences that are equal after lower-casing, `tempoOptions`
fails for both, or succeeds for both with selectors that agree on every
instrument kind (and with the same selector of the old SDK). -/
theorem tempoOptions_lower_case_only (u : Char → Char) (c₁ c₂ : PipelineConfig)
    (h : strings.ToLower u c₁.TemporalityPreference =
      strings.ToLower u c₂.TemporalityPreference) :
    (∃ e₁ e₂, tempoOptions u c₁ = .error e₁ ∧ tempoOptions u c₂ = .error e₂) ∨
    (∃ sel₁ old₁ sel₂ old₂, tempoOptions u c₁ = .ok (sel₁, old₁) ∧
      tempoOptions u c₂ = .ok (sel₂, old₂) ∧ (∀ k, sel₁ k = sel₂ k) ∧ old₁ = old₂) := by
  unfold tempoOptions
  simp only [h]
  split_ifs
  · exact Or.inr ⟨_, _, _, _, rfl, rfl, fun _ => rfl, rfl⟩
  · exact Or.inr ⟨_, _, _, _, rfl, rfl, fun _ => rfl, rfl⟩
  · exact Or.inr ⟨_, _, _, _, rfl, rfl, fun _ => rfl, rfl⟩
  · exact Or.inl ⟨_, _, rfl, rfl⟩

/-- Witness of C18: "DELTA" and "delta" are equal after lower-casing, and both
are accepted with the selector of "delta". -/
theorem tempoOptions_lower_case_only_witness :
    strings.ToLower asciiLower "DELTA" = strings.ToLower asciiLower "delta" ∧
    ((∃ e₁ e₂, tempoOptions asciiLower { TemporalityPreference := "DELTA" } = .error e₁ ∧
        tempoOptions asciiLower { TemporalityPreference := "delta" } = .error e₂) ∨
      (∃ sel₁ old₁ sel₂ old₂,
        tempoOptions asciiLower { TemporalityPreference := "DELTA" } = .ok (sel₁, old₁) ∧
        tempoOptions asciiLower { TemporalityPreference := "delta" } = .ok (sel₂, old₂) ∧
        (∀ k, sel₁ k = sel₂ k) ∧ old₁ = old₂)) ∧
    tempoOptions asciiLower { TemporalityPreference := "DELTA" } =
      .ok (tempoSelector DeltaTemporality DeltaTemporality,
        OldSelector.DeltaTemporalitySelector) :=
  ⟨by decide,
    tempoOptions_lower_case_only asciiLower { TemporalityPreference := "DELTA" }
      { TemporalityPreference := "delta" } (by decide),
    rfl⟩

/-- C19: `t.Valid()` is true exactly for the three named values,
UndefinedTemporality (0), CumulativeTemporality (1) and DeltaTemporality (2);
it is false for every value from 3 on, so for 3 to 255; the undefined
temporality counts as valid. -/
theorem Temporality_Valid_iff (t : Temporality) :
    (Temporality.Valid t = true ↔
      t = UndefinedTemporality ∨ t = CumulativeTemporality ∨ t = DeltaTemporality) ∧
    (Temporality.Valid t = true ↔ t = 0 ∨ t = 1 ∨ t = 2) ∧
    (3 ≤ t → Temporality.Valid t = false) ∧
    Temporality.Valid UndefinedTemporality = true := by
  have h1 : Temporality.Valid t = true ↔
      t = UndefinedTemporality ∨ t = CumulativeTemporality ∨ t = DeltaTemporality := by
    unfold Temporality.Valid
    constructor
    · intro h
      split_ifs at h with hc
      · rcases hc with hc | hc | hc
        · exact Or.inl hc
        · exact Or.inr (Or.inr hc)
        · exact Or.inr (Or.inl hc)
    · intro h
      rw [if_pos]
      rcases h with h | h | h
      · exact Or.inl h
      · exact Or.inr (Or.inr h)
      · exact Or.inr (Or.inl h)
  refine ⟨h1, h1, ?_, by decide⟩
  intro h3
  cases hv : Temporality.Valid t with
  | false => rfl
  | true =>
    rcases h1.1 hv with h | h | h <;>
      simp only [UndefinedTemporality, CumulativeTemporality, DeltaTemporality] at h <;>
      exact absurd h3 (by rw [h]; decide)

/-- Witness of C19: the largest value of the type, 255, is not valid. -/
theorem Temporality_Valid_iff_witness :
    (3 : Nat) ≤ 255 ∧ Temporality.Valid 255 = false :=
  ⟨by decide, (Temporality_Valid_iff 255).2.2.1 (by decide)⟩

end Otel
